import Mathlib

/-!
# College Alerter (`src/mini.cpp`): a shallow embedding

The program is a single-threaded console application.  Its whole state is

* the three global vectors `users`, `studentComplaints`, `studentLeaveNotices`,
* the standard input stream `std::cin` (unread characters and state bits),
* what has been written to `std::cout`.

Every function of `mini.cpp` becomes a Lean function on that state (`World`).
Loops that the source leaves unbounded (`while (true)`, the retry loops) take a
fuel argument and return `none` when it runs out.

Conventions of the embedding:

* a `std::string` is a Lean `String`, a `char` is a Lean `Char`; strings are
  compared character by character (`strLess`), which on UTF-8 text is the
  byte order `std::string` uses;
* `std::cout` is the list of texts written, one entry per output statement
  of the source (their concatenation is the byte stream on the terminal);
* `clearScreen()` only calls `system("clear")`; it touches none of the
  modelled state and is the identity;
* the `int` counters `count` and `studentCount` are natural numbers (they
  would overflow only beyond `2^31 - 1` records).
-/

namespace CollegeAlerter

/-! ## `std::cin` -/

/-- The input stream: the characters not yet read and the two state bits the
program can set (`badbit` is never raised by an in-memory console). -/
structure IStream where
  buf : List Char
  failbit : Bool
  eofbit : Bool
deriving DecidableEq, Repr

/-- The `good()` test made by every `sentry`. -/
def IStream.good (s : IStream) : Bool := !s.failbit && !s.eofbit

/-- The `std::cin.fail()` test. -/
def IStream.fail (s : IStream) : Bool := s.failbit

/-- The `std::cin.clear()` call. -/
def IStream.clear (s : IStream) : IStream := { s with failbit := false, eofbit := false }

/-- The `isspace` test of the "C" locale, used by the `>>` sentry to skip blanks. -/
def isspace (c : Char) : Bool :=
  c == ' ' || c == '\t' || c == '\n' || c == '\x0b' || c == '\x0c' || c == '\r'

/-- Decimal digit test. -/
def isdigit (c : Char) : Bool := decide (48 ≤ c.toNat) && decide (c.toNat ≤ 57)

/-- The `tolower` of the "C" locale: only `A`..`Z` are changed. -/
def tolower (c : Char) : Char :=
  if 65 ≤ c.toNat ∧ c.toNat ≤ 90 then Char.ofNat (c.toNat + 32) else c

/-- Splits the unread input at the first newline: the characters before it, and
the input after it (`none` when the input ends before any newline). -/
def splitLine : List Char → List Char × Option (List Char)
  | [] => ([], none)
  | c :: cs =>
    if c = '\n' then ([], some cs)
    else ((c :: (splitLine cs).1), (splitLine cs).2)

/-- The call `std::getline(std::cin, str)` on an empty `str` (every target in
the source is a freshly constructed string): the line read, without its
newline.  A stream that is not good reads nothing and raises `failbit`; end of
input raises `eofbit`, and `failbit` too when nothing at all was extracted. -/
def IStream.getline (s : IStream) : String × IStream :=
  if s.good then
    match splitLine s.buf with
    | (l, some r) => (String.mk l, { s with buf := r })
    | (l, none) => (String.mk l, { buf := [], failbit := l.isEmpty, eofbit := true })
  else ("", { s with failbit := true })

/-- The call `std::cin.ignore(numeric_limits<streamsize>::max(), '\n')`: drops
the input up to and including the next newline. -/
def IStream.ignore (s : IStream) : IStream :=
  if s.good then
    match splitLine s.buf with
    | (_, some r) => { s with buf := r }
    | (_, none) => { s with buf := [], eofbit := true }
  else { s with failbit := true }

/-- The call `std::cin.get()`: consumes one character (its value is never used). -/
def IStream.get (s : IStream) : IStream :=
  if s.good then
    match s.buf with
    | [] => { s with failbit := true, eofbit := true }
    | _ :: cs => { s with buf := cs }
  else { s with failbit := true }

/-- The longest run of decimal digits at the head of the input, and what follows it. -/
def spanDigits : List Char → List Char × List Char
  | [] => ([], [])
  | c :: cs =>
    if isdigit c then ((c :: (spanDigits cs).1), (spanDigits cs).2)
    else ([], c :: cs)

/-- The number written by a run of decimal digits. -/
def digitsValue (ds : List Char) : Nat :=
  ds.foldl (fun n c => 10 * n + (c.toNat - 48)) 0

/-- The extraction `std::cin >> n` for an `int n`: skips blanks, reads an
optional sign and decimal digits.  With no digit the extraction fails
(`failbit`, value 0); a number outside the 32-bit range fails too and leaves
the nearest bound.  The value left behind by a failed sentry is never read by
the program (every call site tests `fail()` first); the model reports 0. -/
def IStream.extractInt (s : IStream) : Int × IStream :=
  if s.good then
    match s.buf.dropWhile isspace with
    | [] => (0, { buf := [], failbit := true, eofbit := true })
    | c :: cs =>
      let body := if c = '-' ∨ c = '+' then cs else c :: cs
      let ds := (spanDigits body).1
      let rest := (spanDigits body).2
      if ds.isEmpty then (0, { buf := rest, failbit := true, eofbit := rest.isEmpty })
      else
        let v : Int := if c = '-' then - (digitsValue ds : Int) else (digitsValue ds : Int)
        if 2147483647 < v then
          (2147483647, { buf := rest, failbit := true, eofbit := rest.isEmpty })
        else if v < -2147483648 then
          (-2147483648, { buf := rest, failbit := true, eofbit := rest.isEmpty })
        else (v, { buf := rest, failbit := false, eofbit := rest.isEmpty })
  else (0, { s with failbit := true })

/-- The extraction `std::cin >> c` for a `char c`: skips blanks and reads one
character; `none` when nothing could be read (the target is then unchanged). -/
def IStream.extractChar (s : IStream) : Option Char × IStream :=
  if s.good then
    match s.buf.dropWhile isspace with
    | [] => (none, { buf := [], failbit := true, eofbit := true })
    | c :: cs => (some c, { s with buf := cs })
  else (none, { s with failbit := true })

/-! ## Data model -/

/-- The `enum class Role`. -/
inductive Role where
  | STUDENT
  | TEACHER
  | NON_TEACHING_STAFF
deriving DecidableEq, Repr

/-- The `struct User`. -/
structure User where
  name : String
  email : String
  password : String
  phone : String
  role : Role
  roleSpecificData : String
deriving DecidableEq, Repr

/-- The `struct Complaint`. -/
structure Complaint where
  studentEmail : String
  studentName : String
  message : String
deriving DecidableEq, Repr

/-- The `struct LeaveNotice`. -/
structure LeaveNotice where
  studentEmail : String
  studentName : String
  dates : String
  reason : String
deriving DecidableEq, Repr

/-- The program state: the console and the three global vectors. -/
structure World where
  cin : IStream
  cout : List String
  users : List User
  studentComplaints : List Complaint
  studentLeaveNotices : List LeaveNotice
deriving DecidableEq, Repr

/-- One output statement `std::cout << ...;`. -/
def World.put (w : World) (s : String) : World := { w with cout := w.cout ++ [s] }

/-- A run of consecutive output statements. -/
def World.puts (w : World) (l : List String) : World := l.foldl World.put w

/-- The call `std::getline(std::cin, str)`. -/
def World.getline (w : World) : String × World :=
  ((w.cin.getline).1, { w with cin := (w.cin.getline).2 })

/-- The call `std::cin.get()`. -/
def World.get (w : World) : World := { w with cin := w.cin.get }

/-- The call `std::cin.clear()`. -/
def World.clear (w : World) : World := { w with cin := w.cin.clear }

/-- The extraction `std::cin >> n`, `n` an `int`. -/
def World.extractInt (w : World) : Int × World :=
  ((w.cin.extractInt).1, { w with cin := (w.cin.extractInt).2 })

/-- The extraction `std::cin >> c`, `c` a `char`. -/
def World.extractChar (w : World) : Option Char × World :=
  ((w.cin.extractChar).1, { w with cin := (w.cin.extractChar).2 })

/-- The helper `ignoreLine()`. -/
def ignoreLine (w : World) : World := { w with cin := w.cin.ignore }

/-- The function `clearScreen()`: a `system` call, no effect on the modelled state. -/
def clearScreen (w : World) : World := w

/-! ## Registration and login -/

/-- The loop `while (std::cin.fail() || (choice < 1 || choice > 3))` that
`handleRegistration` runs after reading `roleChoice`, and again after reading
`staffChoice`: complain, reset the stream, drop the line, read again. -/
def choiceLoop : Nat → Int → World → Option (Int × World)
  | 0, _, _ => none
  | fuel + 1, choice, w =>
    if w.cin.fail || (choice < 1 || choice > 3) then
      let w1 := ignoreLine (w.put "Invalid input. Please enter 1, 2, or 3: ").clear
      choiceLoop fuel (w1.extractInt).1 (w1.extractInt).2
    else some (choice, w)

/-- The `switch (staffChoice)` of `handleRegistration`. -/
def staffJob (staffChoice : Int) : String :=
  if staffChoice = 1 then "Librarian"
  else if staffChoice = 2 then "Watchman"
  else if staffChoice = 3 then "Clerical/Support Staff"
  else ""

/-- The last statements of `handleRegistration`: store the record, report, wait. -/
def finishRegistration (newUser : User) (w : World) : World :=
  (({ w with users := w.users ++ [newUser] }.put "\nRegistration Successful!\n").put
    "Press Enter to return to the main menu...").get

/-- The function `handleRegistration()`.  The role loop is left only with
`1 ≤ roleChoice ≤ 3`, so the last `else` (no case of the `switch` taken) is
never reached. -/
def handleRegistration (fuel : Nat) (w : World) : Option World :=
  let w1 := (w.put "--- Registration ---\n").put "Enter Name: "
  let name := (w1.getline).1
  let w2 := (w1.getline).2.put "Enter Email: "
  let email := (w2.getline).1
  let w3 := (w2.getline).2
  if w3.users.any (fun user => user.email == email) then
    some (((w3.put "\nError: Email already registered.\n").put
      "Press Enter to return to the main menu...").get)
  else
    let w4 := w3.put "Enter Phone Number: "
    let phone := (w4.getline).1
    let w5 := (w4.getline).2.put "Enter Password: "
    let password := (w5.getline).1
    let w6 := ((((((w5.getline).2.put "\nSelect Role:\n").put "1. Student\n").put
      "2. Teacher\n").put "3. Non-Teaching Staff\n").put "Enter role choice: ")
    match choiceLoop fuel (w6.extractInt).1 (w6.extractInt).2 with
    | none => none
    | some (roleChoice, w7) =>
      let w8 := ignoreLine w7
      if roleChoice = 1 then
        let w9 := w8.put "Enter Student ID Number: "
        some (finishRegistration
          { name := name, email := email, password := password, phone := phone,
            role := Role.STUDENT, roleSpecificData := (w9.getline).1 } (w9.getline).2)
      else if roleChoice = 2 then
        let w9 := w8.put "Enter Teacher Position (e.g., Professor, Asst. Professor): "
        some (finishRegistration
          { name := name, email := email, password := password, phone := phone,
            role := Role.TEACHER, roleSpecificData := (w9.getline).1 } (w9.getline).2)
      else if roleChoice = 3 then
        let w9 := (((((w8.put "\nSelect Non-Teaching Staff Role:\n").put "1. Librarian\n").put
          "2. Watchman\n").put "3. Other Clerical/Support Staff\n").put
          "Enter staff role choice: ")
        match choiceLoop fuel (w9.extractInt).1 (w9.extractInt).2 with
        | none => none
        | some (staffChoice, w10) =>
          some (finishRegistration
            { name := name, email := email, password := password, phone := phone,
              role := Role.NON_TEACHING_STAFF, roleSpecificData := staffJob staffChoice }
            (ignoreLine w10))
      else none

/-- The function `handleLogin(User& loggedInUser)`: the returned `User` is the
content of the reference parameter after the call. -/
def handleLogin (loggedInUser : User) (w : World) : Bool × User × World :=
  let w1 := (w.put "--- Login ---\n").put "Enter Email: "
  let email := (w1.getline).1
  let w2 := (w1.getline).2.put "Enter Password: "
  let password := (w2.getline).1
  let w3 := (w2.getline).2
  match w3.users.find? (fun user => user.email == email && user.password == password) with
  | some user =>
    (true, user, ((w3.put ("\nLogin Successful! Welcome, " ++ user.name ++ ".\n")).put
      "Press Enter to continue...").get)
  | none =>
    (false, loggedInUser, ((w3.put "\nLogin Failed: Invalid email or password.\n").put
      "Press Enter to return to the main menu...").get)

/-! ## Student dashboard -/

/-- The function `displayCollegeEvents()`. -/
def displayCollegeEvents (w : World) : World :=
  (clearScreen w).puts [
    "--- Upcoming College Events ---\n",
    "1. Tech Fest \'Innovate 2024\'\n",
    "   Date: 20 March, 2024\n",
    "   Venue: College Auditorium\n\n",
    "2. Annual Sports Day\n",
    "   Date: 05 April, 2024\n",
    "   Venue: College Sports Ground\n\n",
    "3. Guest Lecture on AI Ethics\n",
    "   Date: 15 April, 2024\n",
    "   Venue: Seminar Hall B\n",
    "--------------------------------\n"]

/-- The function `displayAttendance()`. -/
def displayAttendance (w : World) : World :=
  (clearScreen w).puts [
    "--- Your Attendance (Dummy Data) ---\n",
    "Overall Attendance: 85%\n\n",
    "Subject Wise:\n",
    "- Data Structures: 90%\n",
    "- Operating Systems: 82%\n",
    "- Database Management: 78%\n",
    "- Computer Networks: 91%\n",
    "------------------------------------\n"]

/-- The function `handleComplaintBox(const User& student)`. -/
def handleComplaintBox (student : User) (w : World) : World :=
  let w1 := ((((clearScreen w).put "--- Submit Complaint ---\n").put
    "Please type your complaint below and press Enter:\n").put
    "----------------------------------------------\n")
  let newComplaint : Complaint :=
    { studentEmail := student.email, studentName := student.name, message := (w1.getline).1 }
  let w2 := (w1.getline).2.put "\n----------------------------------------------\n"
  let w3 := { w2 with studentComplaints := w2.studentComplaints ++ [newComplaint] }
  (w3.put "Thank you. Your complaint has been recorded.\n").put
    "----------------------------------------------\n"

/-- The function `handleLeaveNotice(const User& student)`. -/
def handleLeaveNotice (student : User) (w : World) : World :=
  let w1 := ((clearScreen w).put "--- Submit Leave Notice ---\n").put
    "Enter Date(s) of Leave (e.g., 25 Feb 2024 or 25-27 Feb 2024): "
  let dates := (w1.getline).1
  let w2 := ((w1.getline).2.put "Enter Reason for Leave:\n").put "---------------------------\n"
  let newNotice : LeaveNotice :=
    { studentEmail := student.email, studentName := student.name, dates := dates,
      reason := (w2.getline).1 }
  let w3 := (w2.getline).2.put "\n---------------------------\n"
  let w4 := { w3 with studentLeaveNotices := w3.studentLeaveNotices ++ [newNotice] }
  (w4.put ("Leave notice submitted for " ++ newNotice.dates ++ ".\n")).put
    "---------------------------\n"

/-- The function `displayResults()`. -/
def displayResults (w : World) : World :=
  (clearScreen w).puts [
    "--- Your Results (Dummy Data - Last Semester) ---\n",
    "Subject             | Grade\n",
    "--------------------|-------\n",
    "Data Structures     | A\n",
    "Mathematics III     | B+\n",
    "Digital Logic       | A-\n",
    "Economics           | B\n",
    "--------------------|-------\n",
    "SGPA: 8.8\n",
    "---------------------------\n"]

/-- What a dashboard does with an input that is not a number: report, reset the
stream, drop the line, wait for Enter. -/
def rejectInput (w : World) : World :=
  ignoreLine ((ignoreLine (w.put "Invalid input. Please enter a number.\n").clear).put
    "Press Enter to continue...")

/-- The menu that `showStudentDashboard` prints at the top of each round. -/
def studentMenu (user : User) (w : World) : World :=
  (clearScreen w).puts [
    "=====================================\n",
    ("        Student Dashboard - Welcome " ++ user.name ++ "\n"),
    "=====================================\n",
    "1. View College Events\n",
    "2. View Attendance\n",
    "3. Submit Complaint\n",
    "4. Submit Leave Notice\n",
    "5. View Results\n",
    "6. Logout\n",
    "=====================================\n",
    "Enter your choice: "]

/-- The `switch (choice)` of `showStudentDashboard` for a choice other than 6. -/
def studentAction (user : User) (choice : Int) (w : World) : World :=
  if choice = 1 then displayCollegeEvents w
  else if choice = 2 then displayAttendance w
  else if choice = 3 then handleComplaintBox user w
  else if choice = 4 then handleLeaveNotice user w
  else if choice = 5 then displayResults w
  else w.put "Invalid choice. Please try again.\n"

/-- One round of the `while (true)` loop of `showStudentDashboard`; the flag
tells whether the function returned (choice 6) or goes round again. -/
def studentRound (user : User) (w : World) : World × Bool :=
  let w1 := studentMenu user w
  let choice := (w1.extractInt).1
  let w2 := (w1.extractInt).2
  if w2.cin.fail then (rejectInput w2, false)
  else
    let w3 := ignoreLine w2
    if choice = 6 then
      (((w3.put "Logging out...\n").put "Press Enter to return to main menu...").get, true)
    else
      (((studentAction user choice w3).put
        "\nPress Enter to return to the Student Dashboard...").get, false)

/-- The function `showStudentDashboard(const User& user)`. -/
def showStudentDashboard : Nat → User → World → Option World
  | 0, _, _ => none
  | fuel + 1, user, w =>
    if (studentRound user w).2 then some (studentRound user w).1
    else showStudentDashboard fuel user (studentRound user w).1

/-! ## Teacher dashboard -/

/-- The function `displayTeacherMeetings()`. -/
def displayTeacherMeetings (w : World) : World :=
  (clearScreen w).puts [
    "--- Scheduled/Announced Meetings ---\n",
    "1. Department Faculty Meeting\n",
    "   Date: 18 February, 2024\n",
    "   Time: 03:00 PM\n",
    "   Venue: Staff Room\n\n",
    "2. Curriculum Review Committee\n",
    "   Date: 25 February, 2024\n",
    "   Time: 11:00 AM\n",
    "   Venue: Conference Hall\n\n",
    "3. [Placeholder for adding new meetings]\n",
    "-------------------------------------\n"]

/-- The function `handleResultUpload()`. -/
def handleResultUpload (w : World) : World :=
  let w1 := ((clearScreen w).put "--- Upload Student Results ---\n").put "Enter Subject Name: "
  let subjectName := (w1.getline).1
  let w2 := (w1.getline).2.put "Enter path to results file (e.g., C:\\results\\DS_results.csv): "
  let filePath := (w2.getline).1
  ((((((w2.getline).2.put "\n--- Simulation ---\n").put
    ("Simulating upload of results for subject \'" ++ subjectName ++ "\' from file \'" ++ filePath
      ++ "\'.\n")).put
    "In a real application, the file would be processed and data stored.\n").put
    "Results are now considered \'uploaded\' for students to view (in this simulation).\n").put
    "-----------------------------\n")

/-- The order of `std::less<std::string>`, the key order of the attendance
map: lexicographic on the characters, a proper prefix first. -/
def strLess : List Char → List Char → Bool
  | [], [] => false
  | [], _ :: _ => true
  | _ :: _, [] => false
  | a :: as, b :: bs =>
    if a.toNat < b.toNat then true
    else if b.toNat < a.toNat then false
    else strLess as bs

/-- The assignment `attendanceRecord[key] = value` on a `std::map<std::string, bool>`,
kept as the list of its entries in key order: a new key is inserted at its
place, an existing key has its value overwritten. -/
def mapAssign (key : String) (value : Bool) : List (String × Bool) → List (String × Bool)
  | [] => [(key, value)]
  | (k, v) :: m =>
    if strLess key.data k.data then (key, value) :: (k, v) :: m
    else if strLess k.data key.data then (k, v) :: mapAssign key value m
    else (key, value) :: m

/-- The inner `while (true)` of `handleAttendanceTaking`: read a character
until it is `p` or `a` (in either case); returns the lower-cased mark.
`presentChoice` is the content of the local variable, `none` while it is
still uninitialised; a failed extraction leaves it unchanged, and reading it
uninitialised has no defined result (`none`). -/
def markLoop : Nat → Option Char → World → Option (Char × World)
  | 0, _, _ => none
  | fuel + 1, presentChoice, w =>
    match (w.extractChar).1 <|> presentChoice with
    | none => none
    | some c =>
      if tolower c = 'p' ∨ tolower c = 'a' then
        some (tolower c, ignoreLine (w.extractChar).2)
      else
        markLoop fuel (some (tolower c))
          (ignoreLine (((w.extractChar).2.put "Invalid input. Enter \'p\' or \'a\': ").clear))

/-- The `for (const auto& user : users)` loop of `handleAttendanceTaking` over
the users still to visit: prompts for each Student, records the mark under the
student's email, counts the students. -/
def attendanceLoop (fuel : Nat) :
    List User → Option Char → List (String × Bool) → Nat → World →
      Option (List (String × Bool) × Nat × World)
  | [], _, attendanceRecord, studentCount, w => some (attendanceRecord, studentCount, w)
  | user :: rest, presentChoice, attendanceRecord, studentCount, w =>
    if user.role = Role.STUDENT then
      match markLoop fuel presentChoice
          (w.put ("- " ++ user.name ++ " (" ++ user.roleSpecificData ++ "): ")) with
      | none => none
      | some (c, w1) =>
        attendanceLoop fuel rest (some c) (mapAssign user.email (c == 'p') attendanceRecord)
          (studentCount + 1) w1
    else attendanceLoop fuel rest presentChoice attendanceRecord studentCount w

/-- The name search inside the summary loop: the first user with that email,
`"Unknown"` when there is none. -/
def findStudentName (users : List User) (email : String) : String :=
  match users.find? (fun user => user.email == email) with
  | some user => user.name
  | none => "Unknown"

/-- The line the summary prints for one entry of the attendance map. -/
def summaryLine (users : List User) (pair : String × Bool) : String :=
  findStudentName users pair.1 ++ ": " ++ (if pair.2 then "Present" else "Absent") ++ "\n"

/-- The output of `handleAttendanceTaking` after the marking loop. -/
def attendanceReport (subjectName date : String) (attendanceRecord : List (String × Bool))
    (studentCount : Nat) (w : World) : World :=
  let w1 :=
    if studentCount = 0 then w.put "No students found to take attendance for.\n"
    else
      let w2 := w.put ("\n--- Attendance Summary (" ++ subjectName ++ " - " ++ date ++ ") ---\n")
      let w3 := w2.puts (attendanceRecord.map (summaryLine w.users))
      (w3.put "--------------------------------------------------------\n").put
        "Attendance Recorded (Simulated Save).\n"
  w1.put "----------------------\n"

/-- The function `handleAttendanceTaking()`. -/
def handleAttendanceTaking (fuel : Nat) (w : World) : Option World :=
  let w1 := ((clearScreen w).put "--- Take Attendance ---\n").put "Enter Subject Name: "
  let subjectName := (w1.getline).1
  let w2 := (w1.getline).2.put "Enter Date (e.g., 15 Feb 2024): "
  let date := (w2.getline).1
  let w3 := ((w2.getline).2.put "----------------------\n").put
    "Mark Attendance (P=Present, A=Absent):\n"
  match attendanceLoop fuel w3.users none [] 0 w3 with
  | none => none
  | some (attendanceRecord, studentCount, w4) =>
    some (attendanceReport subjectName date attendanceRecord studentCount w4)

/-- What `viewStudentComplaints` prints for the complaint that `count` labels. -/
def complaintEntry (count : Nat) (complaint : Complaint) : List String :=
  [toString count ++ ". From: " ++ complaint.studentName ++ " (" ++ complaint.studentEmail
      ++ ")\n",
   "   Complaint: " ++ complaint.message ++ "\n",
   "---------------------------------------\n"]

/-- The `for` loop of `viewStudentComplaints` over the complaints still to
print, `count` being the running label. -/
def complaintLines : Nat → List Complaint → List String
  | _, [] => []
  | count, complaint :: rest => complaintEntry count complaint ++ complaintLines (count + 1) rest

/-- The function `viewStudentComplaints()`. -/
def viewStudentComplaints (w : World) : World :=
  let w1 := (clearScreen w).put "--- Received Student Complaints ---\n"
  let w2 :=
    if w1.studentComplaints.isEmpty then w1.put "No complaints have been submitted yet.\n"
    else w1.puts (complaintLines 1 w1.studentComplaints)
  w2.put "-----------------------------------\n"

/-- What `viewStudentLeaveNotices` prints for the notice that `count` labels. -/
def noticeEntry (count : Nat) (notice : LeaveNotice) : List String :=
  [toString count ++ ". From: " ++ notice.studentName ++ " (" ++ notice.studentEmail ++ ")\n",
   "   Dates: " ++ notice.dates ++ "\n",
   "   Reason: " ++ notice.reason ++ "\n",
   "----------------------------------------\n"]

/-- The `for` loop of `viewStudentLeaveNotices` over the notices still to
print, `count` being the running label. -/
def noticeLines : Nat → List LeaveNotice → List String
  | _, [] => []
  | count, notice :: rest => noticeEntry count notice ++ noticeLines (count + 1) rest

/-- The function `viewStudentLeaveNotices()`. -/
def viewStudentLeaveNotices (w : World) : World :=
  let w1 := (clearScreen w).put "--- Received Student Leave Notices ---\n"
  let w2 :=
    if w1.studentLeaveNotices.isEmpty then w1.put "No leave notices have been submitted yet.\n"
    else w1.puts (noticeLines 1 w1.studentLeaveNotices)
  w2.put "--------------------------------------\n"

/-- The menu that `showTeacherDashboard` prints at the top of each round. -/
def teacherMenu (user : User) (w : World) : World :=
  (clearScreen w).puts [
    "=====================================\n",
    ("        Teacher Dashboard - Welcome " ++ user.name ++ "\n"),
    ("        Position: " ++ user.roleSpecificData ++ "\n"),
    "=====================================\n",
    "1. View/Announce Meetings\n",
    "2. Upload Student Results\n",
    "3. Take/Upload Attendance\n",
    ("4. View Student Complaints (" ++ toString w.studentComplaints.length ++ ")\n"),
    ("5. View Student Leave Notices (" ++ toString w.studentLeaveNotices.length ++ ")\n"),
    "6. Logout\n",
    "=====================================\n",
    "Enter your choice: "]

/-- The `switch (choice)` of `showTeacherDashboard` for a choice other than 6. -/
def teacherAction (fuel : Nat) (choice : Int) (w : World) : Option World :=
  if choice = 1 then some (displayTeacherMeetings w)
  else if choice = 2 then some (handleResultUpload w)
  else if choice = 3 then handleAttendanceTaking fuel w
  else if choice = 4 then some (viewStudentComplaints w)
  else if choice = 5 then some (viewStudentLeaveNotices w)
  else some (w.put "Invalid choice. Please try again.\n")

/-- One round of the `while (true)` loop of `showTeacherDashboard`; the flag
tells whether the function returned (choice 6) or goes round again. -/
def teacherRound (fuel : Nat) (user : User) (w : World) : Option (World × Bool) :=
  let w1 := teacherMenu user w
  let choice := (w1.extractInt).1
  let w2 := (w1.extractInt).2
  if w2.cin.fail then some (rejectInput w2, false)
  else
    let w3 := ignoreLine w2
    if choice = 6 then
      some (((w3.put "Logging out...\n").put "Press Enter to return to main menu...").get, true)
    else
      match teacherAction fuel choice w3 with
      | none => none
      | some w4 =>
        some ((w4.put "\nPress Enter to return to the Teacher Dashboard...").get, false)

/-- The function `showTeacherDashboard(const User& user)`. -/
def showTeacherDashboard : Nat → User → World → Option World
  | 0, _, _ => none
  | fuel + 1, user, w =>
    match teacherRound fuel user w with
    | none => none
    | some (w1, true) => some w1
    | some (w1, false) => showTeacherDashboard fuel user w1

/-! ## Non-teaching staff dashboard -/

/-- The function `showNonTeachingStaffDashboard(const User& user)`. -/
def showNonTeachingStaffDashboard (user : User) (w : World) : World :=
  let w1 := (clearScreen w).puts [
    "=====================================\n",
    ("   Non-Teaching Staff Dashboard - Welcome " ++ user.name ++ "\n"),
    ("        Role: " ++ user.roleSpecificData ++ "\n"),
    "=====================================\n"]
  let w2 :=
    if user.roleSpecificData = "Librarian" then
      w1.puts ["1. Manage Books (Not Implemented)\n", "2. View Overdue Books (Not Implemented)\n"]
    else w1.put "General staff features not implemented yet.\n"
  (w2.put "\nPress Enter to Logout...").get

/-! ## The main menu -/

/-- The function `displayMainMenu()`. -/
def displayMainMenu (w : World) : World :=
  w.puts [
    "=====================================\n",
    "        Welcome to College Alerter\n",
    "=====================================\n",
    "1. Login\n",
    "2. Register\n",
    "3. Exit\n",
    "=====================================\n"]

/-- The four users `main` stores before its loop. -/
def seedUsers : List User :=
  [{ name := "Alice Smith", email := "student@test.com", password := "pass123",
     phone := "1234567890", role := Role.STUDENT, roleSpecificData := "S1001" },
   { name := "Bob Johnson", email := "student2@test.com", password := "pass123",
     phone := "1122334455", role := Role.STUDENT, roleSpecificData := "S1002" },
   { name := "Prof. Davis", email := "teacher@test.com", password := "pass456",
     phone := "0987654321", role := Role.TEACHER, roleSpecificData := "Professor" },
   { name := "Mr. Lee", email := "staff@test.com", password := "pass789",
     phone := "5556667777", role := Role.NON_TEACHING_STAFF, roleSpecificData := "Librarian" }]

/-- The state in which `main` enters its loop: the seeded users, no complaint,
no leave notice, nothing written, `input` waiting on the console. -/
def initialWorld (input : List Char) : World :=
  { cin := { buf := input, failbit := false, eofbit := false }, cout := [],
    users := seedUsers, studentComplaints := [], studentLeaveNotices := [] }

/-- The value-initialised `User` of `currentUser = {}`. -/
def emptyUser : User :=
  { name := "", email := "", password := "", phone := "", role := Role.STUDENT,
    roleSpecificData := "" }

/-- The `switch (currentUser.role)` of `main`: the dashboard of the logged-in user. -/
def showDashboard (fuel : Nat) (currentUser : User) (w : World) : Option World :=
  match currentUser.role with
  | Role.STUDENT => showStudentDashboard fuel currentUser w
  | Role.TEACHER => showTeacherDashboard fuel currentUser w
  | Role.NON_TEACHING_STAFF => some (showNonTeachingStaffDashboard currentUser w)

/-- The locals of `main` that live across rounds of its loop, and the world. -/
structure MainState where
  loggedIn : Bool
  currentUser : User
  world : World
deriving DecidableEq, Repr

/-- One round of the `while (true)` loop of `main`: the state after it, and the
exit code when the round executed `return 0`. -/
def mainRound (fuel : Nat) (st : MainState) : Option (MainState × Option Int) :=
  let w1 := (displayMainMenu (clearScreen st.world)).put "Enter your choice: "
  let choice := (w1.extractInt).1
  let w2 := (w1.extractInt).2
  if w2.cin.fail then some ({ st with world := rejectInput w2 }, none)
  else
    let w3 := ignoreLine w2
    if choice = 1 then
      let r := handleLogin st.currentUser (clearScreen w3)
      if r.1 then
        match showDashboard fuel r.2.1 r.2.2 with
        | none => none
        | some w4 => some ({ loggedIn := false, currentUser := emptyUser, world := w4 }, none)
      else some ({ loggedIn := false, currentUser := r.2.1, world := r.2.2 }, none)
    else if choice = 2 then
      match handleRegistration fuel (clearScreen w3) with
      | none => none
      | some w4 => some ({ st with world := w4 }, none)
    else if choice = 3 then
      some ({ st with world := w3.put "Exiting College Alerter. Goodbye!\n" }, some 0)
    else
      some ({ st with world := ((w3.put "Invalid choice. Please try again.\n").put
        "Press Enter to continue...").get }, none)

/-- The `while (true)` loop of `main`. -/
def mainLoop : Nat → MainState → Option (Int × World)
  | 0, _ => none
  | fuel + 1, st =>
    match mainRound fuel st with
    | none => none
    | some (st1, some code) => some (code, st1.world)
    | some (st1, none) => mainLoop fuel st1

/-- The function `main()` run on the console input `input`: the exit code and
the final state.  (`currentUser` starts default-constructed; it is assigned by
`handleLogin` before it is ever read.) -/
def main (fuel : Nat) (input : List Char) : Option (Int × World) :=
  mainLoop fuel { loggedIn := false, currentUser := emptyUser, world := initialWorld input }

/-! ## Operations and reachable states -/

/-- The operations the program performs on its state: the console primitives
and every function of `mini.cpp` (a "round" is one turn of a menu loop; logout
is the choice 6 of a dashboard round). -/
inductive Op where
  | say (text : String)
  | readLine
  | readKey
  | readInt
  | readChar
  | resetStream
  | skipLine
  | registration
  | login (loggedInUser : User)
  | collegeEvents
  | attendance
  | complaint (student : User)
  | leaveNotice (student : User)
  | results
  | studentRound (user : User)
  | studentDashboard (user : User)
  | meetings
  | resultUpload
  | attendanceTaking
  | viewComplaints
  | viewLeaveNotices
  | teacherRound (user : User)
  | teacherDashboard (user : User)
  | staffDashboard (user : User)
  | clearScreen
  | mainMenu
  | menuRound (loggedIn : Bool) (currentUser : User)
deriving DecidableEq, Repr

/-- The state an operation leaves, `none` when its loops run out of fuel. -/
def Op.run : Op → Nat → World → Option World
  | Op.say text, _, w => some (w.put text)
  | Op.readLine, _, w => some (w.getline).2
  | Op.readKey, _, w => some w.get
  | Op.readInt, _, w => some (w.extractInt).2
  | Op.readChar, _, w => some (w.extractChar).2
  | Op.resetStream, _, w => some w.clear
  | Op.skipLine, _, w => some (ignoreLine w)
  | Op.registration, fuel, w => handleRegistration fuel w
  | Op.login loggedInUser, _, w => some (handleLogin loggedInUser w).2.2
  | Op.collegeEvents, _, w => some (displayCollegeEvents w)
  | Op.attendance, _, w => some (displayAttendance w)
  | Op.complaint student, _, w => some (handleComplaintBox student w)
  | Op.leaveNotice student, _, w => some (handleLeaveNotice student w)
  | Op.results, _, w => some (displayResults w)
  | Op.studentRound user, _, w => some (CollegeAlerter.studentRound user w).1
  | Op.studentDashboard user, fuel, w => showStudentDashboard fuel user w
  | Op.meetings, _, w => some (displayTeacherMeetings w)
  | Op.resultUpload, _, w => some (handleResultUpload w)
  | Op.attendanceTaking, fuel, w => handleAttendanceTaking fuel w
  | Op.viewComplaints, _, w => some (viewStudentComplaints w)
  | Op.viewLeaveNotices, _, w => some (viewStudentLeaveNotices w)
  | Op.teacherRound user, fuel, w => (CollegeAlerter.teacherRound fuel user w).map Prod.fst
  | Op.teacherDashboard user, fuel, w => showTeacherDashboard fuel user w
  | Op.staffDashboard user, _, w => some (showNonTeachingStaffDashboard user w)
  | Op.clearScreen, _, w => some (CollegeAlerter.clearScreen w)
  | Op.mainMenu, _, w => some (displayMainMenu w)
  | Op.menuRound loggedIn currentUser, fuel, w =>
    (mainRound fuel { loggedIn := loggedIn, currentUser := currentUser, world := w }).map
      (fun r => r.1.world)

/-- The states reachable from the seeded start by any sequence of operations,
on any console input. -/
inductive Reachable : World → Prop
  | start (input : List Char) : Reachable (initialWorld input)
  | step (op : Op) (fuel : Nat) (w w1 : World) :
      Reachable w → op.run fuel w = some w1 → Reachable w1

/-- A console on which `keys` are waiting, in good state. -/
def console (keys : List Char) : IStream := { buf := keys, failbit := false, eofbit := false }

/-- A line of console input: the text and the Enter key. -/
def line (text : String) (rest : List Char) : List Char := text.data ++ '\n' :: rest

/-- The text can be typed as one line: it holds no newline. -/
def OneLine (text : String) : Prop := '\n' ∉ text.data

instance (text : String) : Decidable (OneLine text) := by
  unfold OneLine; exact inferInstance

/-- No two users of the list have the same email. -/
def EmailsUnique (users : List User) : Prop := (users.map User.email).Nodup

instance (users : List User) : Decidable (EmailsUnique users) := by
  unfold EmailsUnique; exact inferInstance

/-- The three stores of `w1` are those of `w`. -/
def SameStores (w w1 : World) : Prop :=
  w1.users = w.users ∧ w1.studentComplaints = w.studentComplaints ∧
    w1.studentLeaveNotices = w.studentLeaveNotices

/-- What one operation may do to the users: nothing, or append one user whose
email is new and fits on a line. -/
def UsersStep (users users1 : List User) : Prop :=
  users1 = users ∨
    ∃ u, users1 = users ++ [u] ∧ (∀ v ∈ users, v.email ≠ u.email) ∧ OneLine u.email

/-- Each store of `w` is a prefix of the same store of `w1`. -/
def StoresGrow (w w1 : World) : Prop :=
  w.users <+: w1.users ∧ w.studentComplaints <+: w1.studentComplaints ∧
    w.studentLeaveNotices <+: w1.studentLeaveNotices

/-- The invariant of the user store: the seeded users are still its first
entries, no two users share an email, and every email fits on a line. -/
def UsersInv (users : List User) : Prop :=
  seedUsers <+: users ∧ EmailsUnique users ∧ ∀ u ∈ users, OneLine u.email

/-- The record the specification expects a registration to store: role choice
1 is a Student, 2 a Teacher, 3 a member of the non-teaching staff; the
role-specific data is the text entered, and for staff the job selected by the
entry (1 Librarian, 2 Watchman, 3 Clerical/Support Staff). -/
def expectedUser (name email phone password : String) (roleChoice : Nat) (entry : String) :
    User :=
  { name := name, email := email, password := password, phone := phone,
    role :=
      if roleChoice = 1 then Role.STUDENT
      else if roleChoice = 2 then Role.TEACHER
      else Role.NON_TEACHING_STAFF,
    roleSpecificData :=
      if roleChoice = 3 then
        (if entry = "1" then "Librarian"
         else if entry = "2" then "Watchman"
         else "Clerical/Support Staff")
      else entry }

/-- A valid role choice with its entry: 1 or 2 with any text, or 3 with a
staff choice 1, 2 or 3. -/
def ValidRole (roleChoice : Nat) (entry : String) : Prop :=
  roleChoice = 1 ∨ roleChoice = 2 ∨
    (roleChoice = 3 ∧ (entry = "1" ∨ entry = "2" ∨ entry = "3"))

instance (roleChoice : Nat) (entry : String) : Decidable (ValidRole roleChoice entry) := by
  unfold ValidRole; exact inferInstance

/-- What is typed to register: name, email, phone, password, the role choice
and the role-specific entry, one per line. -/
def registrationKeys (name email phone password : String) (roleChoice : Nat) (entry : String)
    (rest : List Char) : List Char :=
  line name (line email (line phone (line password (line (toString roleChoice)
    (line entry rest)))))

/-- A sample console session: Carol registers as a Watchman, presses Enter,
then types her email and password to log in. -/
def carolKeys : List Char :=
  registrationKeys "Carol" "carol@x.org" "555" "pw" 3 "2"
    ('\n' :: line "carol@x.org" (line "pw" ['\n']))

/-- A sample console session: someone tries to register with Alice's email. -/
def duplicateKeys : List Char := line "Eve" (line "student@test.com" ['\n'])

/-- A sample console session: Dan registers as a Student. -/
def danKeys : List Char := registrationKeys "Dan" "dan@x.org" "777" "secret" 1 "S2000" ['\n']

/-- A sample console session: Alice's email with a wrong password. -/
def wrongPasswordKeys : List Char := line "student@test.com" (line "pass124" ['\n'])

/-- A sample console session: Bob's email and password. -/
def bobLoginKeys : List Char := line "student2@test.com" (line "pass123" ['\n'])

/-- A sample console session: Bob's email in upper case, and his password. -/
def upperCaseKeys : List Char := line "STUDENT2@TEST.COM" (line "pass123" ['\n'])

/-- What a logged-in student types to submit a complaint from the dashboard:
the choice 3 and the message, each followed by Enter. -/
def complaintKeys (message : String) (rest : List Char) : List Char :=
  '3' :: '\n' :: line message rest

/-- The operations that neither register nor submit: everything but
registration, the two submissions, and the menu rounds and loops that may
contain one of them. -/
def Op.leavesStores : Op → Bool
  | Op.registration => false
  | Op.complaint _ => false
  | Op.leaveNotice _ => false
  | Op.studentRound _ => false
  | Op.studentDashboard _ => false
  | Op.menuRound _ _ => false
  | _ => true

/-- A store with a teacher and a staff member but no student, for samples. -/
def staffOnlyWorld (input : List Char) : World :=
  { cin := console input, cout := [], users := seedUsers.drop 2, studentComplaints := [],
    studentLeaveNotices := [] }

/-- A store with two complaints and one leave notice, for samples. -/
def filledWorld : World :=
  { cin := console [], cout := [], users := seedUsers,
    studentComplaints :=
      [{ studentEmail := "student@test.com", studentName := "Alice Smith",
         message := "No water" },
       { studentEmail := "student2@test.com", studentName := "Bob Johnson",
         message := "Noisy hall" }],
    studentLeaveNotices :=
      [{ studentEmail := "student2@test.com", studentName := "Bob Johnson",
         dates := "25 Feb 2024", reason := "Family event" }] }

/-- What the teacher types to mark the students: one mark and Enter for each. -/
def markKeys (marks : List Char) (rest : List Char) : List Char :=
  marks.foldr (fun m r => m :: '\n' :: r) rest

/-- The entry of the attendance map made for a student and the mark typed. -/
def recordEntry (e : User × Char) : String × Bool := (e.1.email, e.2 == 'p')

/-- Order of two marked students by email, in the key order of the map. -/
def EmailBefore (a b : User × Char) : Prop := strLess a.1.email.data b.1.email.data = true

/-- The prompt `handleAttendanceTaking` prints for a student. -/
def markPrompt (user : User) : String :=
  "- " ++ user.name ++ " (" ++ user.roleSpecificData ++ "): "

/-- A sample console session: subject, date, then `p` for Alice and `a` for Bob. -/
def attendanceKeys : List Char := line "Maths" (line "15 Feb 2024" (markKeys ['p', 'a'] []))

/-- The operations that contain no complaint submission: everything but
`handleComplaintBox` and the student rounds and menu loops that may call it. -/
def Op.submitsNoComplaint : Op → Bool
  | Op.complaint _ => false
  | Op.studentRound _ => false
  | Op.studentDashboard _ => false
  | Op.menuRound _ _ => false
  | _ => true

/-- A run of the program from `w` to `w1` during which the complaints
submitted were, in order, `subs` (the session user and the message typed).  A
submission is a student dashboard round in which the session user types choice
3 and the message; between submissions anything else may happen: operations
that contain no submission, and dashboard rounds with another choice. -/
inductive Submitted : World → List (User × String) → World → Prop
  | start (w : World) : Submitted w [] w
  | other (op : Op) (fuel : Nat) (w w1 w2 : World) (subs : List (User × String)) :
      Submitted w subs w1 → op.submitsNoComplaint = true → op.run fuel w1 = some w2 →
      Submitted w subs w2
  | round (user : User) (w w1 : World) (subs : List (User × String)) :
      Submitted w subs w1 → ((studentMenu user w1).extractInt).1 ≠ 3 →
      Submitted w subs (studentRound user w1).1
  | submit (user : User) (message : String) (rest : List Char) (w w1 : World)
      (subs : List (User × String)) :
      Submitted w subs w1 → OneLine message →
      w1.cin = console (complaintKeys message rest) →
      Submitted w (subs ++ [(user, message)]) (studentRound user w1).1

/-- A sample console session: two complaints typed at a student dashboard,
each followed by Enter. -/
def twoComplaintsKeys : List Char :=
  complaintKeys "Noisy hall" ('\n' :: complaintKeys "No water" ['\n'])

/-! ## The menu state machine

`main` and the dashboards are nested loops.  Flattened, the program is a
machine whose control is at one of four screens, or has left `main`; one step
is one round of the loop of the current screen. -/

/-- Where the control of the program is: in the loop of `main`, in the loop of
`showStudentDashboard` or of `showTeacherDashboard`, in
`showNonTeachingStaffDashboard`, or past the `return` of `main`, with its code. -/
inductive Screen where
  | mainMenu
  | studentDashboard
  | teacherDashboard
  | staffScreen
  | exited (code : Int)
deriving DecidableEq, Repr

/-- The machine state: the screen, the locals of `main` and the world.  Inside
a dashboard `st.currentUser` is the `user` the dashboard was called with. -/
structure Machine where
  screen : Screen
  st : MainState
deriving DecidableEq, Repr

/-- The `switch (currentUser.role)` of `main`: the dashboard entered after a login. -/
def dashboardOf : Role → Screen
  | Role.STUDENT => Screen.studentDashboard
  | Role.TEACHER => Screen.teacherDashboard
  | Role.NON_TEACHING_STAFF => Screen.staffScreen

/-- The state in which a dashboard hands control back to `main`: `loggedIn` and
`currentUser` are reset. -/
def backToMenu (w : World) : Machine :=
  { screen := Screen.mainMenu, st := { loggedIn := false, currentUser := emptyUser, world := w } }

/-- One step of the machine: one round of the loop of the current screen.  At
the main menu the round ends where `main` calls a dashboard (after a successful
login) or where `mainRound` ends; in a dashboard it is `studentRound`,
`teacherRound` or the whole staff screen.  After `return` there is no step. -/
def menuStep (fuel : Nat) (m : Machine) : Option Machine :=
  match m.screen with
  | Screen.mainMenu =>
    let w1 := (displayMainMenu (clearScreen m.st.world)).put "Enter your choice: "
    let choice := (w1.extractInt).1
    let w2 := (w1.extractInt).2
    if w2.cin.fail then
      some { screen := Screen.mainMenu, st := { m.st with world := rejectInput w2 } }
    else
      let w3 := ignoreLine w2
      if choice = 1 then
        let r := handleLogin m.st.currentUser (clearScreen w3)
        if r.1 then
          some { screen := dashboardOf r.2.1.role,
                 st := { loggedIn := true, currentUser := r.2.1, world := r.2.2 } }
        else
          some { screen := Screen.mainMenu,
                 st := { loggedIn := false, currentUser := r.2.1, world := r.2.2 } }
      else if choice = 2 then
        match handleRegistration fuel (clearScreen w3) with
        | none => none
        | some w4 => some { screen := Screen.mainMenu, st := { m.st with world := w4 } }
      else if choice = 3 then
        some { screen := Screen.exited 0,
               st := { m.st with world := w3.put "Exiting College Alerter. Goodbye!\n" } }
      else
        some { screen := Screen.mainMenu,
               st := { m.st with world := ((w3.put "Invalid choice. Please try again.\n").put
                 "Press Enter to continue...").get } }
  | Screen.studentDashboard =>
    if (studentRound m.st.currentUser m.st.world).2 then
      some (backToMenu (studentRound m.st.currentUser m.st.world).1)
    else
      some { screen := Screen.studentDashboard,
             st := { m.st with world := (studentRound m.st.currentUser m.st.world).1 } }
  | Screen.teacherDashboard =>
    match teacherRound fuel m.st.currentUser m.st.world with
    | none => none
    | some (w1, true) => some (backToMenu w1)
    | some (w1, false) => some { screen := Screen.teacherDashboard, st := { m.st with world := w1 } }
  | Screen.staffScreen =>
    some (backToMenu (showNonTeachingStaffDashboard m.st.currentUser m.st.world))
  | Screen.exited _ => none

/-- The machine run for `n` steps. -/
def menuRun (fuel : Nat) : Nat → Machine → Option Machine
  | 0, m => some m
  | n + 1, m =>
    match menuStep fuel m with
    | none => none
    | some m1 => menuRun fuel n m1

/-- The machine state in which `main` enters its loop. -/
def startMachine (input : List Char) : Machine :=
  { screen := Screen.mainMenu,
    st := { loggedIn := false, currentUser := emptyUser, world := initialWorld input } }

/-- The menu choice the next `std::cin >> choice` reads from the console:
`none` when the extraction fails (the input is not a number). -/
def selected (w : World) : Option Int :=
  if (w.cin.extractInt).2.fail then none else some (w.cin.extractInt).1

/-- A sample console session: choice 3 typed at the main menu. -/
def exitKeys : List Char := '3' :: '\n' :: []

/-- A sample machine state: Alice at her dashboard, choice 3 (submit a
complaint) typed, then a message and Enter. -/
def aliceAtDashboard : Machine :=
  { screen := Screen.studentDashboard,
    st := { loggedIn := true, currentUser := seedUsers.get ⟨0, by decide⟩,
            world := initialWorld (complaintKeys "exit" ['\n']) } }

/-! ## One pass of the marking loop -/

/-- One pass through the body of the inner `while (true)` of
`handleAttendanceTaking`: the content of `presentChoice` after `tolower`,
whether the pass took the `break` (the mark is then recorded by the caller), and
the world after the pass.  As in `markLoop`, `none` is the read of the
uninitialised variable. -/
def markRound (presentChoice : Option Char) (w : World) : Option (Char × Bool × World) :=
  match (w.extractChar).1 <|> presentChoice with
  | none => none
  | some c =>
    if tolower c = 'p' ∨ tolower c = 'a' then
      some (tolower c, true, ignoreLine (w.extractChar).2)
    else
      some (tolower c, false,
        ignoreLine (((w.extractChar).2.put "Invalid input. Enter \'p\' or \'a\': ").clear))

/-- The first character of a line that is not a blank, if there is one: the
character `std::cin >> presentChoice` reads from the line. -/
def firstKey (text : String) : Option Char := (text.data.dropWhile isspace).head?

/-- The four characters that stand for a mark. -/
def IsMark (c : Char) : Prop := c = 'p' ∨ c = 'P' ∨ c = 'a' ∨ c = 'A'

instance (c : Char) : Decidable (IsMark c) := by
  unfold IsMark; exact inferInstance

/-- Several lines typed one after the other. -/
def typedLines (lines : List String) (rest : List Char) : List Char :=
  lines.foldr line rest

/-- The lines among `lines` that hold a character other than a blank. -/
def nonBlank (lines : List String) : List String :=
  lines.filter (fun l => (firstKey l).isSome)

/-- A sample console session for the attendance screen: subject, date, then for
Alice an empty line and the word `absent`, and for Bob a blank and `P`. -/
def sloppyMarkKeys : List Char :=
  line "Maths" (line "15 Feb 2024" (line "" (line "absent" (line " P" []))))

/-! ## Console lemmas -/

theorem splitLine_append (l r : List Char) (h : '\n' ∉ l) :
    splitLine (l ++ '\n' :: r) = (l, some r) := by
  induction l with
  | nil => simp [splitLine]
  | cons c cs ih =>
    have hc : c ≠ '\n' := fun e => h (by simp [e])
    have hcs : '\n' ∉ cs := fun e => h (by simp [e])
    simp [splitLine, hc, ih hcs]

theorem splitLine_fst_no_newline (l : List Char) : '\n' ∉ (splitLine l).1 := by
  induction l with
  | nil => simp [splitLine]
  | cons c cs ih =>
    by_cases hc : c = '\n'
    · simp [splitLine, hc]
    · simp only [splitLine, hc, if_false, List.mem_cons, not_or]
      exact ⟨fun e => hc e.symm, ih⟩

theorem getline_line (text : String) (rest : List Char) (h : OneLine text) :
    (console (line text rest)).getline = (text, console rest) := by
  simp [IStream.getline, IStream.good, console, line, splitLine_append _ _ h]

theorem getline_oneLine (s : IStream) : OneLine (s.getline).1 := by
  unfold IStream.getline OneLine
  split
  · split
    · next l r hl =>
      have := splitLine_fst_no_newline s.buf
      rw [hl] at this; exact this
    · next l hl =>
      have := splitLine_fst_no_newline s.buf
      rw [hl] at this; exact this
  · simp

theorem ignore_newline (rest : List Char) :
    (console ('\n' :: rest)).ignore = console rest := by
  simp [IStream.ignore, IStream.good, console, splitLine]

theorem get_key (key : Char) (rest : List Char) :
    (console (key :: rest)).get = console rest := by
  simp [IStream.get, IStream.good, console]

/-! ## Frame lemmas: operations that leave the stores unchanged -/

theorem sameStores_refl (w : World) : SameStores w w := ⟨rfl, rfl, rfl⟩

theorem SameStores.trans {a b c : World} (h1 : SameStores a b) (h2 : SameStores b c) :
    SameStores a c :=
  ⟨h2.1.trans h1.1, h2.2.1.trans h1.2.1, h2.2.2.trans h1.2.2⟩

theorem sameStores_put (w : World) (s : String) : SameStores w (w.put s) := ⟨rfl, rfl, rfl⟩

theorem sameStores_puts (w : World) (l : List String) : SameStores w (w.puts l) := by
  induction l generalizing w with
  | nil => exact sameStores_refl w
  | cons s l ih => exact (sameStores_put w s).trans (ih (w.put s))

theorem sameStores_getline (w : World) : SameStores w (w.getline).2 := ⟨rfl, rfl, rfl⟩
theorem sameStores_get (w : World) : SameStores w w.get := ⟨rfl, rfl, rfl⟩
theorem sameStores_clear (w : World) : SameStores w w.clear := ⟨rfl, rfl, rfl⟩
theorem sameStores_extractInt (w : World) : SameStores w (w.extractInt).2 := ⟨rfl, rfl, rfl⟩
theorem sameStores_extractChar (w : World) : SameStores w (w.extractChar).2 := ⟨rfl, rfl, rfl⟩
theorem sameStores_ignoreLine (w : World) : SameStores w (ignoreLine w) := ⟨rfl, rfl, rfl⟩

theorem puts_cout (w : World) (l : List String) : (w.puts l).cout = w.cout ++ l := by
  induction l generalizing w with
  | nil => simp [World.puts]
  | cons s l ih =>
    have := ih (w.put s)
    simp only [World.puts, List.foldl_cons] at this ⊢
    rw [this]; simp [World.put]

theorem puts_cin (w : World) (l : List String) : (w.puts l).cin = w.cin := by
  induction l generalizing w with
  | nil => simp [World.puts]
  | cons s l ih =>
    have := ih (w.put s)
    simp only [World.puts, List.foldl_cons] at this ⊢
    rw [this]; simp [World.put]

theorem sameStores_choiceLoop (fuel : Nat) (choice : Int) (w : World) (r : Int × World)
    (h : choiceLoop fuel choice w = some r) : SameStores w r.2 := by
  induction fuel generalizing choice w with
  | zero => simp [choiceLoop] at h
  | succ n ih =>
    rw [choiceLoop] at h
    split at h
    · have := ih _ _ h
      exact SameStores.trans ⟨rfl, rfl, rfl⟩ this
    · cases h; exact sameStores_refl w

theorem choiceLoop_range (fuel : Nat) (choice : Int) (w : World) (r : Int × World)
    (h : choiceLoop fuel choice w = some r) : 1 ≤ r.1 ∧ r.1 ≤ 3 := by
  induction fuel generalizing choice w with
  | zero => simp [choiceLoop] at h
  | succ n ih =>
    rw [choiceLoop] at h
    split at h
    · exact ih _ _ h
    · next hc =>
      cases h
      simp only [Bool.or_eq_true, decide_eq_true_eq, not_or, not_lt] at hc
      exact ⟨hc.2.1, hc.2.2⟩

theorem sameStores_handleLogin (session : User) (w : World) :
    SameStores w (handleLogin session w).2.2 := by
  unfold handleLogin
  dsimp only
  split <;> exact ⟨rfl, rfl, rfl⟩

theorem sameStores_displayCollegeEvents (w : World) : SameStores w (displayCollegeEvents w) :=
  sameStores_puts _ _

theorem sameStores_displayAttendance (w : World) : SameStores w (displayAttendance w) :=
  sameStores_puts _ _

theorem sameStores_displayResults (w : World) : SameStores w (displayResults w) :=
  sameStores_puts _ _

theorem sameStores_displayTeacherMeetings (w : World) :
    SameStores w (displayTeacherMeetings w) :=
  sameStores_puts _ _

theorem sameStores_handleResultUpload (w : World) : SameStores w (handleResultUpload w) :=
  ⟨rfl, rfl, rfl⟩

theorem sameStores_rejectInput (w : World) : SameStores w (rejectInput w) := ⟨rfl, rfl, rfl⟩

theorem sameStores_markLoop (fuel : Nat) (pc : Option Char) (w : World) (r : Char × World)
    (h : markLoop fuel pc w = some r) : SameStores w r.2 := by
  induction fuel generalizing pc w with
  | zero => simp [markLoop] at h
  | succ n ih =>
    rw [markLoop] at h
    split at h
    · cases h
    · split at h
      · cases h; exact ⟨rfl, rfl, rfl⟩
      · have := ih _ _ h
        exact SameStores.trans ⟨rfl, rfl, rfl⟩ this

theorem sameStores_attendanceLoop (fuel : Nat) (us : List User) (pc : Option Char)
    (m : List (String × Bool)) (n : Nat) (w : World) (r : List (String × Bool) × Nat × World)
    (h : attendanceLoop fuel us pc m n w = some r) : SameStores w r.2.2 := by
  induction us generalizing pc m n w with
  | nil => simp [attendanceLoop] at h; cases h; exact sameStores_refl w
  | cons u us ih =>
    rw [attendanceLoop] at h
    split at h
    · split at h
      · cases h
      · next c w1 hm =>
        exact (SameStores.trans (sameStores_put _ _) (sameStores_markLoop _ _ _ _ hm)).trans
          (ih _ _ _ _ h)
    · exact ih _ _ _ _ h

theorem sameStores_attendanceReport (subject date : String) (m : List (String × Bool))
    (n : Nat) (w : World) : SameStores w (attendanceReport subject date m n w) := by
  unfold attendanceReport
  dsimp only
  split
  · exact ⟨rfl, rfl, rfl⟩
  · exact (((sameStores_put _ _).trans (sameStores_puts _ _)).trans (sameStores_put _ _)).trans
      ((sameStores_put _ _).trans (sameStores_put _ _))

theorem sameStores_handleAttendanceTaking (fuel : Nat) (w w1 : World)
    (h : handleAttendanceTaking fuel w = some w1) : SameStores w w1 := by
  unfold handleAttendanceTaking at h
  dsimp only at h
  split at h
  · cases h
  · next m n w4 hl =>
    cases h
    have h1 := sameStores_attendanceLoop _ _ _ _ _ _ _ hl
    exact (SameStores.trans ⟨rfl, rfl, rfl⟩ h1).trans (sameStores_attendanceReport _ _ _ _ _)

theorem sameStores_viewStudentComplaints (w : World) :
    SameStores w (viewStudentComplaints w) := by
  unfold viewStudentComplaints
  dsimp only
  split
  · exact ⟨rfl, rfl, rfl⟩
  · exact ((sameStores_put _ _).trans (sameStores_puts _ _)).trans (sameStores_put _ _)

theorem sameStores_viewStudentLeaveNotices (w : World) :
    SameStores w (viewStudentLeaveNotices w) := by
  unfold viewStudentLeaveNotices
  dsimp only
  split
  · exact ⟨rfl, rfl, rfl⟩
  · exact ((sameStores_put _ _).trans (sameStores_puts _ _)).trans (sameStores_put _ _)

theorem sameStores_teacherAction (fuel : Nat) (choice : Int) (w w1 : World)
    (h : teacherAction fuel choice w = some w1) : SameStores w w1 := by
  unfold teacherAction at h
  split at h
  · cases h; exact sameStores_displayTeacherMeetings w
  · split at h
    · cases h; exact sameStores_handleResultUpload w
    · split at h
      · exact sameStores_handleAttendanceTaking _ _ _ h
      · split at h
        · cases h; exact sameStores_viewStudentComplaints w
        · split at h
          · cases h; exact sameStores_viewStudentLeaveNotices w
          · cases h; exact sameStores_put _ _

theorem sameStores_teacherMenu (user : User) (w : World) : SameStores w (teacherMenu user w) :=
  sameStores_puts _ _

theorem sameStores_teacherRound (fuel : Nat) (user : User) (w : World) (r : World × Bool)
    (h : teacherRound fuel user w = some r) : SameStores w r.1 := by
  unfold teacherRound at h
  have hm := sameStores_teacherMenu user w
  dsimp only at h
  split at h
  · cases h; exact (hm.trans (sameStores_extractInt _)).trans (sameStores_rejectInput _)
  · split at h
    · cases h
      exact (hm.trans ((sameStores_extractInt _).trans (sameStores_ignoreLine _))).trans
        (((sameStores_put _ _).trans (sameStores_put _ _)).trans (sameStores_get _))
    · split at h
      · cases h
      · next w4 ha =>
        cases h
        have h1 : SameStores w (ignoreLine (teacherMenu user w).extractInt.2) :=
          hm.trans ((sameStores_extractInt _).trans (sameStores_ignoreLine _))
        have h2 := sameStores_teacherAction _ _ _ _ ha
        exact (h1.trans h2).trans ((sameStores_put _ _).trans (sameStores_get _))

theorem sameStores_showTeacherDashboard (fuel : Nat) (user : User) (w w1 : World)
    (h : showTeacherDashboard fuel user w = some w1) : SameStores w w1 := by
  induction fuel generalizing w with
  | zero => simp [showTeacherDashboard] at h
  | succ n ih =>
    rw [showTeacherDashboard] at h
    split at h
    · cases h
    · next w2 hr => cases h; exact sameStores_teacherRound _ _ _ _ hr
    · next w2 hr => exact (sameStores_teacherRound _ _ _ _ hr).trans (ih _ h)

theorem sameStores_showNonTeachingStaffDashboard (user : User) (w : World) :
    SameStores w (showNonTeachingStaffDashboard user w) := by
  unfold showNonTeachingStaffDashboard
  dsimp only
  split
  · exact ((sameStores_puts _ _).trans (sameStores_puts _ _)).trans ⟨rfl, rfl, rfl⟩
  · exact (sameStores_puts _ _).trans ⟨rfl, rfl, rfl⟩

/-! ## Frame lemmas: registration, complaints, leave notices, the menu loops -/

theorem world_getline_oneLine (w : World) : OneLine (w.getline).1 :=
  getline_oneLine w.cin

theorem finishRegistration_users (newUser : User) (w : World) :
    (finishRegistration newUser w).users = w.users ++ [newUser] ∧
    (finishRegistration newUser w).studentComplaints = w.studentComplaints ∧
    (finishRegistration newUser w).studentLeaveNotices = w.studentLeaveNotices :=
  ⟨rfl, rfl, rfl⟩

theorem finishRegistration_effect (w w0 : World) (newUser : User)
    (hu : w0.users = w.users) (hc : w0.studentComplaints = w.studentComplaints)
    (hl : w0.studentLeaveNotices = w.studentLeaveNotices)
    (hnew : ∀ v ∈ w.users, v.email ≠ newUser.email) (hone : OneLine newUser.email) :
    UsersStep w.users (finishRegistration newUser w0).users ∧
      (finishRegistration newUser w0).studentComplaints = w.studentComplaints ∧
      (finishRegistration newUser w0).studentLeaveNotices = w.studentLeaveNotices := by
  refine ⟨Or.inr ⟨newUser, ?_, hnew, hone⟩, ?_, ?_⟩
  · rw [(finishRegistration_users _ _).1, hu]
  · rw [(finishRegistration_users _ _).2.1, hc]
  · rw [(finishRegistration_users _ _).2.2, hl]

theorem handleRegistration_effect (fuel : Nat) (w w1 : World)
    (h : handleRegistration fuel w = some w1) :
    UsersStep w.users w1.users ∧ w1.studentComplaints = w.studentComplaints ∧
      w1.studentLeaveNotices = w.studentLeaveNotices := by
  unfold handleRegistration at h
  dsimp only at h
  split at h
  · cases h; exact ⟨Or.inl rfl, rfl, rfl⟩
  · next hany =>
    have hnew : ∀ v ∈ w.users, v.email ≠
        ((((w.put "--- Registration ---\n").put "Enter Name: ").getline).2.put
          "Enter Email: ").getline.1 := by
      intro v hv he
      apply hany
      simp only [List.any_eq_true, beq_iff_eq]
      exact ⟨v, hv, he⟩
    have hone := world_getline_oneLine
      ((((w.put "--- Registration ---\n").put "Enter Name: ").getline).2.put "Enter Email: ")
    split at h
    · cases h
    · next roleChoice w7 hloop =>
      have h7 := sameStores_choiceLoop _ _ _ _ hloop
      have hu7 : w7.users = w.users := h7.1
      have hc7 : w7.studentComplaints = w.studentComplaints := h7.2.1
      have hl7 : w7.studentLeaveNotices = w.studentLeaveNotices := h7.2.2
      split at h
      · cases h
        exact finishRegistration_effect _ _ _ hu7 hc7 hl7 hnew hone
      · split at h
        · cases h
          exact finishRegistration_effect _ _ _ hu7 hc7 hl7 hnew hone
        · split at h
          · split at h
            · cases h
            · next staffChoice w10 hloop2 =>
              have h10 := sameStores_choiceLoop _ _ _ _ hloop2
              have hu10 : w10.users = w.users := h10.1.trans hu7
              have hc10 : w10.studentComplaints = w.studentComplaints := h10.2.1.trans hc7
              have hl10 : w10.studentLeaveNotices = w.studentLeaveNotices := h10.2.2.trans hl7
              cases h
              exact finishRegistration_effect _ _ _ hu10 hc10 hl10 hnew hone
          · cases h

theorem storesGrow_refl (w : World) : StoresGrow w w :=
  ⟨List.prefix_refl _, List.prefix_refl _, List.prefix_refl _⟩

theorem StoresGrow.seqGrow {a b c : World} (h1 : StoresGrow a b) (h2 : StoresGrow b c) :
    StoresGrow a c :=
  ⟨h1.1.trans h2.1, h1.2.1.trans h2.2.1, h1.2.2.trans h2.2.2⟩

theorem SameStores.grow {w w1 : World} (h : SameStores w w1) : StoresGrow w w1 := by
  obtain ⟨h1, h2, h3⟩ := h
  exact ⟨h1 ▸ List.prefix_refl _, h2 ▸ List.prefix_refl _, h3 ▸ List.prefix_refl _⟩

theorem SameStores.both {w w1 : World} (h : SameStores w w1) :
    w1.users = w.users ∧ StoresGrow w w1 :=
  ⟨h.1, h.grow⟩

theorem SameStores.step {w w1 : World} (h : SameStores w w1) :
    UsersStep w.users w1.users ∧ StoresGrow w w1 :=
  ⟨Or.inl h.1, h.grow⟩

theorem UsersStep.grows {users users1 : List User} (h : UsersStep users users1) :
    users <+: users1 := by
  rcases h with h | ⟨u, h, _⟩
  · exact h ▸ List.prefix_refl _
  · exact h ▸ List.prefix_append _ _

theorem handleComplaintBox_effect (student : User) (w : World) :
    (handleComplaintBox student w).users = w.users ∧
    (handleComplaintBox student w).studentLeaveNotices = w.studentLeaveNotices ∧
    (handleComplaintBox student w).studentComplaints = w.studentComplaints ++
      [{ studentEmail := student.email, studentName := student.name,
         message := (w.cin.getline).1 }] :=
  ⟨rfl, rfl, rfl⟩

theorem handleLeaveNotice_effect (student : User) (w : World) :
    (handleLeaveNotice student w).users = w.users ∧
    (handleLeaveNotice student w).studentComplaints = w.studentComplaints ∧
    (handleLeaveNotice student w).studentLeaveNotices = w.studentLeaveNotices ++
      [{ studentEmail := student.email, studentName := student.name,
         dates := (w.cin.getline).1, reason := ((w.cin.getline).2.getline).1 }] :=
  ⟨rfl, rfl, rfl⟩

theorem studentAction_effect (user : User) (choice : Int) (w : World) :
    (studentAction user choice w).users = w.users ∧
      StoresGrow w (studentAction user choice w) := by
  unfold studentAction
  split
  · exact ⟨(sameStores_displayCollegeEvents w).1, (sameStores_displayCollegeEvents w).grow⟩
  · split
    · exact ⟨(sameStores_displayAttendance w).1, (sameStores_displayAttendance w).grow⟩
    · split
      · have h := handleComplaintBox_effect user w
        exact ⟨h.1, h.1 ▸ List.prefix_refl _, h.2.2 ▸ List.prefix_append _ _,
          h.2.1 ▸ List.prefix_refl _⟩
      · split
        · have h := handleLeaveNotice_effect user w
          exact ⟨h.1, h.1 ▸ List.prefix_refl _, h.2.1 ▸ List.prefix_refl _,
            h.2.2 ▸ List.prefix_append _ _⟩
        · split
          · exact ⟨(sameStores_displayResults w).1, (sameStores_displayResults w).grow⟩
          · exact ⟨rfl, (sameStores_put _ _).grow⟩

theorem sameStores_studentMenu (user : User) (w : World) : SameStores w (studentMenu user w) :=
  sameStores_puts _ _

theorem studentRound_effect (user : User) (w : World) :
    (studentRound user w).1.users = w.users ∧ StoresGrow w (studentRound user w).1 := by
  have hm := sameStores_studentMenu user w
  have h1 : SameStores w (ignoreLine (studentMenu user w).extractInt.2) :=
    hm.trans ((sameStores_extractInt _).trans (sameStores_ignoreLine _))
  unfold studentRound
  dsimp only
  split
  · exact SameStores.both
      ((hm.trans (sameStores_extractInt _)).trans (sameStores_rejectInput _))
  · split
    · exact SameStores.both (h1.trans (((sameStores_put _ _).trans (sameStores_put _ _)).trans
        (sameStores_get _)))
    · have h2 := studentAction_effect user (studentMenu user w).extractInt.1
        (ignoreLine (studentMenu user w).extractInt.2)
      have h3 : SameStores
          (studentAction user (studentMenu user w).extractInt.1
            (ignoreLine (studentMenu user w).extractInt.2))
          ((studentAction user (studentMenu user w).extractInt.1
            (ignoreLine (studentMenu user w).extractInt.2)).put
              "\nPress Enter to return to the Student Dashboard...").get :=
        (sameStores_put _ _).trans (sameStores_get _)
      exact ⟨h3.1.trans (h2.1.trans h1.1), (h1.grow.seqGrow h2.2).seqGrow h3.grow⟩

theorem showStudentDashboard_effect (fuel : Nat) (user : User) (w w1 : World)
    (h : showStudentDashboard fuel user w = some w1) :
    w1.users = w.users ∧ StoresGrow w w1 := by
  induction fuel generalizing w with
  | zero => simp [showStudentDashboard] at h
  | succ n ih =>
    rw [showStudentDashboard] at h
    have hr := studentRound_effect user w
    split at h
    · cases h; exact hr
    · have := ih _ h
      exact ⟨this.1.trans hr.1, hr.2.seqGrow this.2⟩

theorem showDashboard_effect (fuel : Nat) (user : User) (w w1 : World)
    (h : showDashboard fuel user w = some w1) :
    w1.users = w.users ∧ StoresGrow w w1 := by
  unfold showDashboard at h
  split at h
  · exact showStudentDashboard_effect _ _ _ _ h
  · have := sameStores_showTeacherDashboard _ _ _ _ h
    exact ⟨this.1, this.grow⟩
  · cases h
    have := sameStores_showNonTeachingStaffDashboard user w
    exact ⟨this.1, this.grow⟩

theorem sameStores_displayMainMenu (w : World) : SameStores w (displayMainMenu w) :=
  sameStores_puts _ _

theorem mainRound_effect (fuel : Nat) (st : MainState) (r : MainState × Option Int)
    (h : mainRound fuel st = some r) :
    UsersStep st.world.users r.1.world.users ∧ StoresGrow st.world r.1.world := by
  have hm : SameStores st.world
      ((displayMainMenu (clearScreen st.world)).put "Enter your choice: ").extractInt.2 :=
    ((sameStores_displayMainMenu _).trans (sameStores_put _ _)).trans (sameStores_extractInt _)
  have h3 := hm.trans (sameStores_ignoreLine _)
  unfold mainRound at h
  dsimp only at h
  split at h
  · cases h
    exact SameStores.step (hm.trans (sameStores_rejectInput _))
  · split at h
    · have hl := h3.trans (sameStores_handleLogin st.currentUser _)
      split at h
      · split at h
        · cases h
        · next w4 hd =>
          cases h
          have := showDashboard_effect _ _ _ _ hd
          exact ⟨Or.inl (this.1.trans hl.1), hl.grow.seqGrow this.2⟩
      · cases h; exact ⟨Or.inl hl.1, hl.grow⟩
    · split at h
      · split at h
        · cases h
        · next w4 hreg =>
          cases h
          have := handleRegistration_effect _ _ _ hreg
          have hu : (clearScreen (ignoreLine ((displayMainMenu (clearScreen st.world)).put
              "Enter your choice: ").extractInt.2)).users = st.world.users := h3.1
          refine ⟨?_, h3.grow.seqGrow ⟨this.1.grows, this.2.1 ▸ List.prefix_refl _,
            this.2.2 ▸ List.prefix_refl _⟩⟩
          have h5 := this.1
          rw [hu] at h5
          exact h5
      · split at h
        · cases h
          exact SameStores.step (h3.trans (sameStores_put _ _))
        · cases h
          exact SameStores.step (h3.trans (((sameStores_put _ _).trans (sameStores_put _ _)).trans
            (sameStores_get _)))

/-! ## Every operation, and the invariant of the user store -/

theorem run_effect (op : Op) (fuel : Nat) (w w1 : World) (h : op.run fuel w = some w1) :
    UsersStep w.users w1.users ∧ StoresGrow w w1 := by
  cases op with
  | say text => cases h; exact (sameStores_put _ _).step
  | readLine => cases h; exact (sameStores_getline _).step
  | readKey => cases h; exact (sameStores_get _).step
  | readInt => cases h; exact (sameStores_extractInt _).step
  | readChar => cases h; exact (sameStores_extractChar _).step
  | resetStream => cases h; exact (sameStores_clear _).step
  | skipLine => cases h; exact (sameStores_ignoreLine _).step
  | registration =>
    have := handleRegistration_effect _ _ _ h
    exact ⟨this.1, this.1.grows, this.2.1 ▸ List.prefix_refl _, this.2.2 ▸ List.prefix_refl _⟩
  | login u => cases h; exact (sameStores_handleLogin _ _).step
  | collegeEvents => cases h; exact (sameStores_displayCollegeEvents _).step
  | attendance => cases h; exact (sameStores_displayAttendance _).step
  | complaint s =>
    cases h
    have := studentAction_effect s 3 w
    simp only [studentAction] at this
    exact ⟨Or.inl this.1, this.2⟩
  | leaveNotice s =>
    cases h
    have := studentAction_effect s 4 w
    simp only [studentAction] at this
    exact ⟨Or.inl this.1, this.2⟩
  | results => cases h; exact (sameStores_displayResults _).step
  | studentRound u =>
    cases h
    have := studentRound_effect u w
    exact ⟨Or.inl this.1, this.2⟩
  | studentDashboard u =>
    have := showStudentDashboard_effect _ _ _ _ h
    exact ⟨Or.inl this.1, this.2⟩
  | meetings => cases h; exact (sameStores_displayTeacherMeetings _).step
  | resultUpload => cases h; exact (sameStores_handleResultUpload _).step
  | attendanceTaking => exact (sameStores_handleAttendanceTaking _ _ _ h).step
  | viewComplaints => cases h; exact (sameStores_viewStudentComplaints _).step
  | viewLeaveNotices => cases h; exact (sameStores_viewStudentLeaveNotices _).step
  | teacherRound u =>
    simp only [Op.run, Option.map_eq_some'] at h
    obtain ⟨r, hr, rfl⟩ := h
    exact (sameStores_teacherRound _ _ _ _ hr).step
  | teacherDashboard u => exact (sameStores_showTeacherDashboard _ _ _ _ h).step
  | staffDashboard u => cases h; exact (sameStores_showNonTeachingStaffDashboard _ _).step
  | clearScreen => cases h; exact (sameStores_refl _).step
  | mainMenu => cases h; exact (sameStores_displayMainMenu _).step
  | menuRound b u =>
    simp only [Op.run, Option.map_eq_some'] at h
    obtain ⟨r, hr, rfl⟩ := h
    exact mainRound_effect _ _ _ hr

theorem usersInv_seed : UsersInv seedUsers := by
  refine ⟨List.prefix_refl _, ?_, ?_⟩
  · unfold EmailsUnique; decide
  · unfold OneLine; decide

theorem usersInv_step (users users1 : List User) (h : UsersInv users)
    (hs : UsersStep users users1) : UsersInv users1 := by
  rcases hs with rfl | ⟨u, rfl, hnew, hone⟩
  · exact h
  · obtain ⟨h1, h2, h3⟩ := h
    refine ⟨h1.trans (List.prefix_append _ _), ?_, ?_⟩
    · unfold EmailsUnique at h2 ⊢
      rw [List.map_append, List.nodup_append]
      refine ⟨h2, by simp, ?_⟩
      intro e he1 he2
      simp only [List.map_cons, List.map_nil, List.mem_singleton] at he2
      obtain ⟨v, hv, hve⟩ := List.mem_map.1 he1
      exact hnew v hv (hve.trans he2)
    · intro v hv
      rcases List.mem_append.1 hv with hv | hv
      · exact h3 v hv
      · rw [List.mem_singleton.1 hv]; exact hone

theorem reachable_usersInv (w : World) (h : Reachable w) : UsersInv w.users := by
  induction h with
  | start input => exact usersInv_seed
  | step op fuel w w1 _ hrun ih => exact usersInv_step _ _ ih (run_effect _ _ _ _ hrun).1

/-! ## Registration and login on well-formed input -/

theorem extractInt_choice (d : Char) (rest : List Char)
    (hd : d = '1' ∨ d = '2' ∨ d = '3' ∨ d = '4' ∨ d = '5' ∨ d = '6') :
    (console (d :: '\n' :: rest)).extractInt
      = (((d.toNat - 48 : Nat) : Int), console ('\n' :: rest)) := by
  rcases hd with h | h | h | h | h | h <;> subst h <;>
    simp [IStream.extractInt, IStream.good, console, isspace, spanDigits, isdigit, digitsValue]

theorem console_fail (keys : List Char) : (console keys).fail = false := rfl

theorem any_email_false (users : List User) (email : String)
    (h : ∀ u ∈ users, u.email ≠ email) :
    users.any (fun user => user.email == email) = false := by
  simp only [List.any_eq_false, beq_iff_eq]
  exact h

theorem any_email_true (users : List User) (email : String)
    (h : ∃ u ∈ users, u.email = email) :
    users.any (fun user => user.email == email) = true := by
  simp only [List.any_eq_true, beq_iff_eq]
  exact h

theorem line_digit (d : Nat) (c : Char) (rest : List Char) (h : (toString d).data = [c]) :
    line (toString d) rest = c :: '\n' :: rest := by
  simp [line, h]

theorem handleRegistration_valid (fuel : Nat) (w : World)
    (name email phone password entry : String) (roleChoice : Nat) (key : Char)
    (rest : List Char)
    (hn : OneLine name) (he : OneLine email) (hp : OneLine phone) (hw : OneLine password)
    (hs : OneLine entry) (hrole : ValidRole roleChoice entry)
    (hnew : ∀ u ∈ w.users, u.email ≠ email)
    (hcin : w.cin = console
      (registrationKeys name email phone password roleChoice entry (key :: rest))) :
    ∃ w1, handleRegistration (fuel + 1) w = some w1 ∧
      w1.users = w.users ++ [expectedUser name email phone password roleChoice entry] ∧
      w1.cin = console rest ∧ w1.studentComplaints = w.studentComplaints ∧
      w1.studentLeaveNotices = w.studentLeaveNotices := by
  have h1 : (toString (1 : Nat)).data = ['1'] := rfl
  have h2 : (toString (2 : Nat)).data = ['2'] := rfl
  have h3 : (toString (3 : Nat)).data = ['3'] := rfl
  have e1 : line "1" (key :: rest) = '1' :: '\n' :: key :: rest := rfl
  have e2 : line "2" (key :: rest) = '2' :: '\n' :: key :: rest := rfl
  have e3 : line "3" (key :: rest) = '3' :: '\n' :: key :: rest := rfl
  rcases hrole with rfl | rfl | ⟨rfl, rfl | rfl | rfl⟩ <;>
  simp [handleRegistration, World.put, World.getline, World.extractInt, World.get, ignoreLine,
    finishRegistration, choiceLoop, hcin, getline_line, hn, he, hp, hw, hs, registrationKeys,
    any_email_false _ _ hnew, extractInt_choice, console_fail, ignore_newline, get_key,
    line_digit _ _ _ h1, line_digit _ _ _ h2, line_digit _ _ _ h3, e1, e2, e3, expectedUser,
    staffJob]

theorem handleRegistration_cases (fuel : Nat) (w w1 : World)
    (h : handleRegistration fuel w = some w1) :
    ((∃ v ∈ w.users, v.email = ((w.cin.getline).2.getline).1) ∧ w1.users = w.users) ∨
    ((∀ v ∈ w.users, v.email ≠ ((w.cin.getline).2.getline).1) ∧
      ∃ u, u.email = ((w.cin.getline).2.getline).1 ∧ w1.users = w.users ++ [u]) := by
  unfold handleRegistration at h
  dsimp only at h
  split at h
  · next hany =>
    cases h
    left
    simp only [List.any_eq_true, beq_iff_eq] at hany
    exact ⟨hany, rfl⟩
  · next hany =>
    right
    have hnew : ∀ v ∈ w.users, v.email ≠ ((w.cin.getline).2.getline).1 := by
      intro v hv he
      apply hany
      simp only [List.any_eq_true, beq_iff_eq]
      exact ⟨v, hv, he⟩
    refine ⟨hnew, ?_⟩
    split at h
    · cases h
    · next roleChoice w7 hloop =>
      have hu7 : w7.users = w.users := (sameStores_choiceLoop _ _ _ _ hloop).1
      split at h
      · cases h
        exact ⟨_, rfl, by rw [(finishRegistration_users _ _).1]; exact congrArg (· ++ _) hu7⟩
      · split at h
        · cases h
          exact ⟨_, rfl, by rw [(finishRegistration_users _ _).1]; exact congrArg (· ++ _) hu7⟩
        · split at h
          · split at h
            · cases h
            · next staffChoice w10 hloop2 =>
              have hu10 : w10.users = w.users :=
                (sameStores_choiceLoop _ _ _ _ hloop2).1.trans hu7
              cases h
              exact ⟨_, rfl, by
                rw [(finishRegistration_users _ _).1]; exact congrArg (· ++ _) hu10⟩
          · cases h

theorem getline_two_lines (a b : String) (rest : List Char) (ha : OneLine a) (hb : OneLine b) :
    (((console (line a (line b rest))).getline).2.getline).1 = b := by
  rw [getline_line a _ ha, getline_line b _ hb]

theorem handleLogin_result (session : User) (w : World) (email password : String)
    (rest : List Char) (he : OneLine email) (hp : OneLine password)
    (hcin : w.cin = console (line email (line password rest))) :
    (handleLogin session w).1 =
        (w.users.find? (fun user => user.email == email && user.password == password)).isSome ∧
    (handleLogin session w).2.1 =
        (w.users.find? (fun user => user.email == email && user.password == password)).getD
          session := by
  unfold handleLogin
  simp only [World.put, World.getline, hcin, getline_line, he, hp]
  split <;> rename_i heq <;> simp [heq]

theorem find?_first {α : Type} (p : α → Bool) (before : List α) (u : α) (after : List α)
    (hu : p u = true) (hb : ∀ v ∈ before, p v = false) :
    (before ++ u :: after).find? p = some u := by
  induction before with
  | nil => simp [List.find?, hu]
  | cons b bs ih =>
    have hb0 : p b = false := hb b (by simp)
    simp only [List.cons_append, List.find?, hb0]
    exact ih (fun v hv => hb v (by simp [hv]))

theorem emailsUnique_inj (users : List User) (h : EmailsUnique users) (u v : User)
    (hu : u ∈ users) (hv : v ∈ users) (he : u.email = v.email) : u = v :=
  List.inj_on_of_nodup_map h hu hv he

/-! ## Register, log in, and the uniqueness of emails -/

/-- C1. Register-then-login round trip: on any store in which no user has the
email, typing a name, email, phone, password, a valid role choice and its entry
makes `handleRegistration` return, and any later `handleLogin` with the same
email and password (on a store that still starts with the users stored so far)
succeeds and copies into the session the user with the role selected and the
role-specific data entered. -/
theorem register_then_login (fuel : Nat) (w : World) (session : User)
    (name email phone password entry : String) (roleChoice : Nat) (key : Char)
    (rest : List Char)
    (hn : OneLine name) (he : OneLine email) (hp : OneLine phone) (hw : OneLine password)
    (hs : OneLine entry) (hrole : ValidRole roleChoice entry)
    (hnew : ∀ u ∈ w.users, u.email ≠ email)
    (hcin : w.cin = console
      (registrationKeys name email phone password roleChoice entry (key :: rest))) :
    ∃ w1, handleRegistration (fuel + 1) w = some w1 ∧
      ∀ (w2 : World) (rest2 : List Char), w1.users <+: w2.users →
        w2.cin = console (line email (line password rest2)) →
        (handleLogin session w2).1 = true ∧
        (handleLogin session w2).2.1 =
          expectedUser name email phone password roleChoice entry := by
  obtain ⟨w1, hreg, hu1, -, -, -⟩ :=
    handleRegistration_valid fuel w name email phone password entry roleChoice key rest
      hn he hp hw hs hrole hnew hcin
  refine ⟨w1, hreg, ?_⟩
  intro w2 rest2 hpre hcin2
  obtain ⟨t, ht⟩ := hpre
  have hfind : w2.users.find? (fun user => user.email == email && user.password == password)
      = some (expectedUser name email phone password roleChoice entry) := by
    rw [← ht, hu1, List.append_assoc]
    apply find?_first
    · simp [expectedUser]
    · intro v hv
      simp [hnew v hv]
  have hres := handleLogin_result session w2 email password rest2 he hw hcin2
  rw [hfind] at hres
  exact ⟨hres.1, hres.2⟩

/-- Witness for C1: Carol registers as staff with choice 2 and logs in at once. -/
theorem register_then_login_witness :
    ∃ w1, handleRegistration 1 (initialWorld carolKeys) = some w1 ∧
      ∀ (w2 : World) (rest2 : List Char), w1.users <+: w2.users →
        w2.cin = console (line "carol@x.org" (line "pw" rest2)) →
        (handleLogin emptyUser w2).1 = true ∧
        (handleLogin emptyUser w2).2.1 =
          { name := "Carol", email := "carol@x.org", password := "pw", phone := "555",
            role := Role.NON_TEACHING_STAFF, roleSpecificData := "Watchman" } :=
  register_then_login 0 (initialWorld carolKeys) emptyUser "Carol" "carol@x.org" "555" "pw" "2" 3
    '\n' (line "carol@x.org" (line "pw" ['\n'])) (by decide) (by decide) (by decide)
    (by decide) (by decide) (by decide) (by decide) rfl

/-- C2. Duplicate registration is rejected atomically: when the email typed
equals the email of an existing user, `handleRegistration` returns with the
three stores unchanged; when no existing user has it, every completed
registration appends exactly one user, with that email, and changes nothing
else, and a registration typed in full does complete. -/
theorem duplicate_registration_rejected (fuel : Nat) (w : World) (name email : String)
    (rest : List Char) (hn : OneLine name) (he : OneLine email)
    (hcin : w.cin = console (line name (line email rest))) :
    ((∃ u ∈ w.users, u.email = email) →
      ∃ w1, handleRegistration fuel w = some w1 ∧ w1.users = w.users ∧
        w1.studentComplaints = w.studentComplaints ∧
        w1.studentLeaveNotices = w.studentLeaveNotices) ∧
    ((∀ u ∈ w.users, u.email ≠ email) →
      (∀ w1, handleRegistration fuel w = some w1 →
        (∃ u, u.email = email ∧ w1.users = w.users ++ [u]) ∧
          w1.studentComplaints = w.studentComplaints ∧
          w1.studentLeaveNotices = w.studentLeaveNotices) ∧
      (∀ (phone password entry : String) (roleChoice : Nat) (key : Char) (rest1 : List Char),
        OneLine phone → OneLine password → OneLine entry → ValidRole roleChoice entry →
        rest = line phone (line password (line (toString roleChoice)
          (line entry (key :: rest1)))) →
        ∃ w1, handleRegistration (fuel + 1) w = some w1 ∧
          w1.users = w.users ++ [expectedUser name email phone password roleChoice entry] ∧
          w1.studentComplaints = w.studentComplaints ∧
          w1.studentLeaveNotices = w.studentLeaveNotices)) := by
  have hread : ((w.cin.getline).2.getline).1 = email := by
    rw [hcin]; exact getline_two_lines name email rest hn he
  refine ⟨?_, ?_⟩
  · intro hdup
    simp [handleRegistration, World.put, World.getline, World.get, hcin, getline_line, hn, he,
      any_email_true _ _ hdup]
  · intro hnew
    refine ⟨?_, ?_⟩
    · intro w1 hreg
      have heff := handleRegistration_effect fuel w w1 hreg
      refine ⟨?_, heff.2.1, heff.2.2⟩
      rcases handleRegistration_cases fuel w w1 hreg with ⟨⟨v, hv, hve⟩, -⟩ | ⟨-, u, hu, hus⟩
      · exact absurd (hve.trans hread) (hnew v hv)
      · exact ⟨u, hu.trans hread, hus⟩
    · intro phone password entry roleChoice key rest1 hp hw hs hrole hrest
      obtain ⟨w1, hreg, hu1, -, hc, hl⟩ :=
        handleRegistration_valid fuel w name email phone password entry roleChoice key rest1
          hn he hp hw hs hrole hnew (by rw [hcin, hrest]; rfl)
      exact ⟨w1, hreg, hu1, hc, hl⟩

/-- Witness for C2: registering with Alice's email leaves the seeded store as
it is, and registering Dan appends exactly Dan. -/
theorem duplicate_registration_rejected_witness :
    (∃ w1, handleRegistration 0 (initialWorld duplicateKeys) = some w1 ∧
      w1.users = seedUsers ∧ w1.studentComplaints = [] ∧ w1.studentLeaveNotices = []) ∧
    (∃ w1, handleRegistration 1 (initialWorld danKeys) = some w1 ∧
      w1.users = seedUsers ++ [expectedUser "Dan" "dan@x.org" "777" "secret" 1 "S2000"] ∧
      w1.studentComplaints = [] ∧ w1.studentLeaveNotices = []) :=
  ⟨(duplicate_registration_rejected 0 (initialWorld duplicateKeys) "Eve" "student@test.com"
      ['\n'] (by decide) (by decide) rfl).1 (by decide),
   ((duplicate_registration_rejected 0 (initialWorld danKeys) "Dan" "dan@x.org"
      (line "777" (line "secret" (line (toString 1) (line "S2000" ['\n']))))
      (by decide) (by decide) rfl).2 (by decide)).2 "777" "secret" "S2000" 1 '\n' []
      (by decide) (by decide) (by decide) (by decide) rfl⟩

/-- C3. Login with a wrong password fails: in a state reachable from the seeded
start, typing the email of an existing user and a password different from that
user's makes `handleLogin` return false, leave the session user as it was, and
leave users, complaints and leave notices unchanged. -/
theorem login_wrong_password (w : World) (hreach : Reachable w) (session u : User)
    (password : String) (rest : List Char) (hu : u ∈ w.users) (hpw : password ≠ u.password)
    (hp : OneLine password) (hcin : w.cin = console (line u.email (line password rest))) :
    (handleLogin session w).1 = false ∧ (handleLogin session w).2.1 = session ∧
      (handleLogin session w).2.2.users = w.users ∧
      (handleLogin session w).2.2.studentComplaints = w.studentComplaints ∧
      (handleLogin session w).2.2.studentLeaveNotices = w.studentLeaveNotices := by
  obtain ⟨-, huniq, hlines⟩ := reachable_usersInv w hreach
  have hnone : w.users.find?
      (fun user => user.email == u.email && user.password == password) = none := by
    rw [List.find?_eq_none]
    intro v hv hm
    simp only [Bool.and_eq_true, beq_iff_eq] at hm
    have : v = u := emailsUnique_inj w.users huniq v u hv hu hm.1
    exact hpw (this ▸ hm.2).symm
  have hres := handleLogin_result session w u.email password rest (hlines u hu) hp hcin
  rw [hnone] at hres
  have hsame := sameStores_handleLogin session w
  exact ⟨hres.1, hres.2, hsame.1, hsame.2.1, hsame.2.2⟩

/-- Witness for C3: Alice's email with the password `pass124`, at the seeded start. -/
theorem login_wrong_password_witness :
    (handleLogin emptyUser (initialWorld wrongPasswordKeys)).1 = false ∧
      (handleLogin emptyUser (initialWorld wrongPasswordKeys)).2.1 = emptyUser ∧
      (handleLogin emptyUser (initialWorld wrongPasswordKeys)).2.2.users = seedUsers ∧
      (handleLogin emptyUser (initialWorld wrongPasswordKeys)).2.2.studentComplaints = [] ∧
      (handleLogin emptyUser (initialWorld wrongPasswordKeys)).2.2.studentLeaveNotices = [] :=
  login_wrong_password (initialWorld wrongPasswordKeys) (Reachable.start wrongPasswordKeys)
    emptyUser
    { name := "Alice Smith", email := "student@test.com", password := "pass123",
      phone := "1234567890", role := Role.STUDENT, roleSpecificData := "S1001" }
    "pass124" ['\n'] (by decide) (by decide) (by decide) rfl

/-- C4. Login is a first-match linear scan: with an email and a password typed,
`handleLogin` returns true exactly when some user has that very email and that
very password, and then the session user is the whole record of the first such
user in store order. -/
theorem login_first_match (session : User) (w : World) (email password : String)
    (rest : List Char) (he : OneLine email) (hp : OneLine password)
    (hcin : w.cin = console (line email (line password rest))) :
    ((handleLogin session w).1 = true ↔
      ∃ u ∈ w.users, u.email = email ∧ u.password = password) ∧
    (∀ (before : List User) (u : User) (after : List User),
      w.users = before ++ u :: after → u.email = email → u.password = password →
      (∀ v ∈ before, ¬ (v.email = email ∧ v.password = password)) →
      (handleLogin session w).1 = true ∧ (handleLogin session w).2.1 = u) := by
  have hres := handleLogin_result session w email password rest he hp hcin
  refine ⟨?_, ?_⟩
  · rw [hres.1, List.find?_isSome]
    simp only [Bool.and_eq_true, beq_iff_eq]
  · intro before u after hus hue hup hb
    have hfind : w.users.find? (fun user => user.email == email && user.password == password)
        = some u := by
      rw [hus]
      apply find?_first
      · simp [hue, hup]
      · intro v hv
        have := hb v hv
        simp only [Bool.and_eq_false_iff, beq_eq_false_iff_ne]
        by_cases h1 : v.email = email
        · exact Or.inr (fun h2 => this ⟨h1, h2⟩)
        · exact Or.inl h1
    rw [hfind] at hres
    exact ⟨hres.1, hres.2⟩

/-- Witness for C4: at the seeded start Bob's email and password log Bob in,
the second record of the store, and the same email in upper case logs nobody in. -/
theorem login_first_match_witness :
    ((handleLogin emptyUser (initialWorld bobLoginKeys)).1 = true ∧
      (handleLogin emptyUser (initialWorld bobLoginKeys)).2.1 =
        { name := "Bob Johnson", email := "student2@test.com", password := "pass123",
          phone := "1122334455", role := Role.STUDENT, roleSpecificData := "S1002" }) ∧
    ¬ ((handleLogin emptyUser (initialWorld upperCaseKeys)).1 = true) :=
  ⟨(login_first_match emptyUser (initialWorld bobLoginKeys) "student2@test.com" "pass123"
      ['\n'] (by decide) (by decide) rfl).2
      [{ name := "Alice Smith", email := "student@test.com", password := "pass123",
         phone := "1234567890", role := Role.STUDENT, roleSpecificData := "S1001" }]
      { name := "Bob Johnson", email := "student2@test.com", password := "pass123",
        phone := "1122334455", role := Role.STUDENT, roleSpecificData := "S1002" }
      [{ name := "Prof. Davis", email := "teacher@test.com", password := "pass456",
         phone := "0987654321", role := Role.TEACHER, roleSpecificData := "Professor" },
       { name := "Mr. Lee", email := "staff@test.com", password := "pass789",
         phone := "5556667777", role := Role.NON_TEACHING_STAFF,
         roleSpecificData := "Librarian" }]
      rfl rfl rfl (by decide),
   fun h => absurd ((login_first_match emptyUser (initialWorld upperCaseKeys)
      "STUDENT2@TEST.COM" "pass123" ['\n'] (by decide) (by decide) rfl).1.1 h) (by decide)⟩

/-- C5. Email uniqueness is an invariant of the store: in the seeded start and
in every state reachable from it by any sequence of operations (registrations,
logins, dashboard operations, logouts, on any input), no two users have the
same email. -/
theorem emails_unique_invariant (w : World) (hreach : Reachable w) :
    (w.users.map User.email).Nodup :=
  (reachable_usersInv w hreach).2.1

/-- Witness for C5: the state after Dan's registration at the seeded start. -/
theorem emails_unique_invariant_witness :
    ∃ w1, handleRegistration 1 (initialWorld danKeys) = some w1 ∧ w1.users.length = 5 ∧
      (w1.users.map User.email).Nodup :=
  ⟨(handleRegistration 1 (initialWorld danKeys)).get (by decide), by decide, by decide,
    emails_unique_invariant _
      (Reachable.step Op.registration 1 (initialWorld danKeys) _ (Reachable.start danKeys)
        (by decide))⟩

theorem run_leavesStores (op : Op) (fuel : Nat) (w w1 : World) (h : op.run fuel w = some w1)
    (hop : op.leavesStores = true) : SameStores w w1 := by
  cases op with
  | say text => cases h; exact sameStores_put _ _
  | readLine => cases h; exact sameStores_getline _
  | readKey => cases h; exact sameStores_get _
  | readInt => cases h; exact sameStores_extractInt _
  | readChar => cases h; exact sameStores_extractChar _
  | resetStream => cases h; exact sameStores_clear _
  | skipLine => cases h; exact sameStores_ignoreLine _
  | registration => simp [Op.leavesStores] at hop
  | login u => cases h; exact sameStores_handleLogin _ _
  | collegeEvents => cases h; exact sameStores_displayCollegeEvents _
  | attendance => cases h; exact sameStores_displayAttendance _
  | complaint s => simp [Op.leavesStores] at hop
  | leaveNotice s => simp [Op.leavesStores] at hop
  | results => cases h; exact sameStores_displayResults _
  | studentRound u => simp [Op.leavesStores] at hop
  | studentDashboard u => simp [Op.leavesStores] at hop
  | meetings => cases h; exact sameStores_displayTeacherMeetings _
  | resultUpload => cases h; exact sameStores_handleResultUpload _
  | attendanceTaking => exact sameStores_handleAttendanceTaking _ _ _ h
  | viewComplaints => cases h; exact sameStores_viewStudentComplaints _
  | viewLeaveNotices => cases h; exact sameStores_viewStudentLeaveNotices _
  | teacherRound u =>
    simp only [Op.run, Option.map_eq_some'] at h
    obtain ⟨r, hr, rfl⟩ := h
    exact sameStores_teacherRound _ _ _ _ hr
  | teacherDashboard u => exact sameStores_showTeacherDashboard _ _ _ _ h
  | staffDashboard u => cases h; exact sameStores_showNonTeachingStaffDashboard _ _
  | clearScreen => cases h; exact sameStores_refl _
  | mainMenu => cases h; exact sameStores_displayMainMenu _
  | menuRound b u => simp [Op.leavesStores] at hop

/-! ## Complaints in submission order -/

theorem puts_users (w : World) (l : List String) : (w.puts l).users = w.users :=
  (sameStores_puts w l).1

theorem puts_studentComplaints (w : World) (l : List String) :
    (w.puts l).studentComplaints = w.studentComplaints :=
  (sameStores_puts w l).2.1

theorem puts_studentLeaveNotices (w : World) (l : List String) :
    (w.puts l).studentLeaveNotices = w.studentLeaveNotices :=
  (sameStores_puts w l).2.2

theorem studentRound_complaint (user : User) (w : World) (message : String)
    (rest : List Char) (hm : OneLine message)
    (hcin : w.cin = console (complaintKeys message rest)) :
    (studentRound user w).1.studentComplaints = w.studentComplaints ++
      [{ studentEmail := user.email, studentName := user.name, message := message }] := by
  simp [studentRound, studentMenu, puts_cin, puts_studentComplaints, World.extractInt,
    clearScreen, hcin, complaintKeys, extractInt_choice, console_fail, ignoreLine,
    ignore_newline, studentAction, handleComplaintBox, World.put, World.getline, World.get,
    getline_line, hm]

theorem studentAction_no_complaint (user : User) (choice : Int) (w : World) (h : choice ≠ 3) :
    (studentAction user choice w).studentComplaints = w.studentComplaints := by
  unfold studentAction
  split
  · exact (sameStores_displayCollegeEvents w).2.1
  · split
    · exact (sameStores_displayAttendance w).2.1
    · split
      · exact (handleLeaveNotice_effect user w).2.1
      · split
        · exact (sameStores_displayResults w).2.1
        · rfl

theorem studentRound_no_complaint (user : User) (w : World)
    (h : ((studentMenu user w).extractInt).1 ≠ 3) :
    (studentRound user w).1.studentComplaints = w.studentComplaints := by
  have hm := sameStores_studentMenu user w
  have h1 : SameStores w (ignoreLine (studentMenu user w).extractInt.2) :=
    hm.trans ((sameStores_extractInt _).trans (sameStores_ignoreLine _))
  unfold studentRound
  dsimp only
  split
  · exact ((hm.trans (sameStores_extractInt _)).trans (sameStores_rejectInput _)).2.1
  · split
    · exact (h1.trans (((sameStores_put _ _).trans (sameStores_put _ _)).trans
        (sameStores_get _))).2.1
    · exact (studentAction_no_complaint user _ _ h).trans h1.2.1

theorem run_submitsNoComplaint (op : Op) (fuel : Nat) (w w1 : World)
    (h : op.run fuel w = some w1) (hop : op.submitsNoComplaint = true) :
    w1.studentComplaints = w.studentComplaints := by
  by_cases hl : op.leavesStores = true
  · exact (run_leavesStores op fuel w w1 h hl).2.1
  · cases op with
    | registration => exact (handleRegistration_effect fuel w w1 h).2.1
    | leaveNotice s => cases h; exact (handleLeaveNotice_effect s w).2.1
    | complaint s => simp [Op.submitsNoComplaint] at hop
    | studentRound u => simp [Op.submitsNoComplaint] at hop
    | studentDashboard u => simp [Op.submitsNoComplaint] at hop
    | menuRound b u => simp [Op.submitsNoComplaint] at hop
    | _ => simp [Op.leavesStores] at hl

theorem submitted_complaints (w w1 : World) (subs : List (User × String))
    (h : Submitted w subs w1) :
    w1.studentComplaints = w.studentComplaints ++ subs.map (fun s =>
      { studentEmail := s.1.email, studentName := s.1.name, message := s.2 }) := by
  induction h with
  | start w => simp
  | other op fuel w w1 w2 subs _ hop hrun ih =>
    rw [run_submitsNoComplaint op fuel w1 w2 hrun hop, ih]
  | round user w w1 subs _ hchoice ih =>
    rw [studentRound_no_complaint user w1 hchoice, ih]
  | submit user message rest w w1 subs _ hm hcin ih =>
    rw [studentRound_complaint user w1 message rest hm hcin, ih]
    simp

/-- C6. Complaints accumulate in submission order with the submitter's
identity: starting from an empty complaint store, after any run in which N
complaints were submitted, each from the dashboard of some session user who
types choice 3 and a message, and whatever else happened in between, the
complaint store has length N and its entries are, in order, the messages typed,
each with the email and the name of the user whose session submitted it. -/
theorem complaints_accumulate (w w1 : World) (subs : List (User × String))
    (hrun : Submitted w subs w1) (hempty : w.studentComplaints = []) :
    w1.studentComplaints = subs.map (fun s =>
        { studentEmail := s.1.email, studentName := s.1.name, message := s.2 }) ∧
    w1.studentComplaints.length = subs.length := by
  have h := submitted_complaints w w1 subs hrun
  rw [hempty, List.nil_append] at h
  exact ⟨h, by rw [h, List.length_map]⟩

/-- Witness for C6: at the seeded start Bob submits a complaint, the complaints
are viewed, then Alice submits one. -/
theorem complaints_accumulate_witness :
    (studentRound (seedUsers.get ⟨0, by decide⟩)
      (viewStudentComplaints
        (studentRound (seedUsers.get ⟨1, by decide⟩)
          (initialWorld twoComplaintsKeys)).1)).1.studentComplaints
      = [{ studentEmail := "student2@test.com", studentName := "Bob Johnson",
           message := "Noisy hall" },
         { studentEmail := "student@test.com", studentName := "Alice Smith",
           message := "No water" }] :=
  (complaints_accumulate (initialWorld twoComplaintsKeys) _
    ([] ++ [(seedUsers.get ⟨1, by decide⟩, "Noisy hall")] ++
      [(seedUsers.get ⟨0, by decide⟩, "No water")])
    (Submitted.submit (seedUsers.get ⟨0, by decide⟩) "No water" ['\n'] _ _ _
      (Submitted.other Op.viewComplaints 0 _ _ _ _
        (Submitted.submit (seedUsers.get ⟨1, by decide⟩) "Noisy hall"
          ('\n' :: complaintKeys "No water" ['\n']) _ _ _
          (Submitted.start (initialWorld twoComplaintsKeys)) (by decide) rfl)
        rfl rfl)
      (by decide) (by decide))
    rfl).1

/-! ## Append-only stores -/

theorem studentRound_logout (user : User) (w : World) (h : (studentRound user w).2 = true) :
    SameStores w (studentRound user w).1 := by
  have hm := sameStores_studentMenu user w
  have h1 : SameStores w (ignoreLine (studentMenu user w).extractInt.2) :=
    hm.trans ((sameStores_extractInt _).trans (sameStores_ignoreLine _))
  unfold studentRound at h ⊢
  dsimp only at h ⊢
  split
  · next hf => rw [if_pos hf] at h; cases h
  · next hf =>
    rw [if_neg hf] at h
    split
    · exact h1.trans (((sameStores_put _ _).trans (sameStores_put _ _)).trans
        (sameStores_get _))
    · next h6 => rw [if_neg h6] at h; cases h

/-- C7. The three stores are append-only and each operation touches only its
own store: whatever operation runs, each store before is a prefix of the store
after; a registration either finds the typed email taken and changes nothing,
or appends exactly one user and changes nothing else; a complaint submission
appends exactly one complaint and changes nothing else; a leave-notice
submission appends exactly one leave notice and changes nothing else; the
logout round of the student dashboard and every other operation (login, upload
results, take attendance, the view screens, the teacher and staff dashboards,
the static screens, the console primitives) leave all three stores unchanged. -/
theorem stores_append_only (op : Op) (fuel : Nat) (w w1 : World)
    (h : op.run fuel w = some w1) :
    (w.users <+: w1.users ∧ w.studentComplaints <+: w1.studentComplaints ∧
      w.studentLeaveNotices <+: w1.studentLeaveNotices) ∧
    (op = Op.registration →
      (((∃ v ∈ w.users, v.email = ((w.cin.getline).2.getline).1) ∧ w1.users = w.users) ∨
        ((∀ v ∈ w.users, v.email ≠ ((w.cin.getline).2.getline).1) ∧
          ∃ u, w1.users = w.users ++ [u])) ∧
      w1.studentComplaints = w.studentComplaints ∧
      w1.studentLeaveNotices = w.studentLeaveNotices) ∧
    (∀ student, op = Op.complaint student →
      (∃ c, w1.studentComplaints = w.studentComplaints ++ [c]) ∧ w1.users = w.users ∧
      w1.studentLeaveNotices = w.studentLeaveNotices) ∧
    (∀ student, op = Op.leaveNotice student →
      (∃ n, w1.studentLeaveNotices = w.studentLeaveNotices ++ [n]) ∧ w1.users = w.users ∧
      w1.studentComplaints = w.studentComplaints) ∧
    (∀ user, op = Op.studentRound user → (studentRound user w).2 = true →
      SameStores w w1) ∧
    (op.leavesStores = true → SameStores w w1) := by
  refine ⟨(run_effect op fuel w w1 h).2, ?_, ?_, ?_, ?_, ?_⟩
  · rintro rfl
    have heff := handleRegistration_effect fuel w w1 h
    refine ⟨?_, heff.2.1, heff.2.2⟩
    rcases handleRegistration_cases fuel w w1 h with ⟨hdup, hus⟩ | ⟨hnew, u, -, hus⟩
    · exact Or.inl ⟨hdup, hus⟩
    · exact Or.inr ⟨hnew, u, hus⟩
  · rintro student rfl
    cases h
    have := handleComplaintBox_effect student w
    exact ⟨⟨_, this.2.2⟩, this.1, this.2.1⟩
  · rintro student rfl
    cases h
    have := handleLeaveNotice_effect student w
    exact ⟨⟨_, this.2.2⟩, this.1, this.2.1⟩
  · rintro user rfl hlogout
    cases h
    exact studentRound_logout user w hlogout
  · exact run_leavesStores op fuel w w1 h

/-- Witness for C7: Dan's registration at the seeded start appends one user
and leaves the complaints and leave notices as they were. -/
theorem stores_append_only_witness :
    ∃ w1, Op.registration.run 1 (initialWorld danKeys) = some w1 ∧
      seedUsers <+: w1.users ∧ w1.users.length = 5 ∧
      w1.studentComplaints = [] ∧ w1.studentLeaveNotices = [] :=
  ⟨(Op.registration.run 1 (initialWorld danKeys)).get (by decide), by decide,
    (stores_append_only Op.registration 1 (initialWorld danKeys) _ (by decide)).1.1,
    by decide,
    ((stores_append_only Op.registration 1 (initialWorld danKeys) _ (by decide)).2.1 rfl).2.1,
    ((stores_append_only Op.registration 1 (initialWorld danKeys) _ (by decide)).2.1 rfl).2.2⟩

/-! ## Attendance: the key order of the map and the summary -/

theorem char_toNat_inj (a b : Char) (h : a.toNat = b.toNat) : a = b := by
  apply Char.ext
  apply UInt32.ext
  exact h

theorem strLess_irrefl (a : List Char) : strLess a a = false := by
  induction a with
  | nil => rfl
  | cons c cs ih => simp [strLess, ih]

theorem strLess_trans (a b c : List Char) (h1 : strLess a b = true) (h2 : strLess b c = true) :
    strLess a c = true := by
  induction a generalizing b c with
  | nil =>
    cases c with
    | nil => cases b <;> simp [strLess] at h1 h2
    | cons z zs => rfl
  | cons x xs ih =>
    cases b with
    | nil => simp [strLess] at h1
    | cons y ys =>
      cases c with
      | nil => simp [strLess] at h2
      | cons z zs =>
        simp only [strLess] at h1 h2 ⊢
        by_cases hxy : x.toNat < y.toNat
        · by_cases hyz : y.toNat < z.toNat
          · have : x.toNat < z.toNat := by omega
            simp [this]
          · simp only [hyz, if_false] at h2
            by_cases hzy : z.toNat < y.toNat
            · simp [hzy] at h2
            · have : x.toNat < z.toNat := by omega
              simp [this]
        · simp only [hxy, if_false] at h1
          by_cases hyx : y.toNat < x.toNat
          · simp [hyx] at h1
          · simp only [hyx, if_false] at h1
            by_cases hyz : y.toNat < z.toNat
            · have : x.toNat < z.toNat := by omega
              simp [this]
            · simp only [hyz, if_false] at h2
              by_cases hzy : z.toNat < y.toNat
              · simp [hzy] at h2
              · simp only [hzy, if_false] at h2
                have e1 : ¬ x.toNat < z.toNat := by omega
                have e2 : ¬ z.toNat < x.toNat := by omega
                simp only [e1, e2, if_false]
                exact ih ys zs h1 h2

theorem strLess_connex (a b : List Char) (h1 : strLess a b = false) (h2 : strLess b a = false) :
    a = b := by
  induction a generalizing b with
  | nil => cases b with
    | nil => rfl
    | cons y ys => simp [strLess] at h1
  | cons x xs ih =>
    cases b with
    | nil => simp [strLess] at h2
    | cons y ys =>
      simp only [strLess] at h1 h2
      by_cases hxy : x.toNat < y.toNat
      · simp [hxy] at h1
      · by_cases hyx : y.toNat < x.toNat
        · simp [hyx] at h2
        · simp only [hxy, hyx, if_false] at h1 h2
          have : x = y := char_toNat_inj x y (by omega)
          rw [this, ih ys h1 h2]

theorem strLess_asymm (a b : List Char) (h : strLess a b = true) : strLess b a = false := by
  cases hba : strLess b a with
  | false => rfl
  | true =>
    have := strLess_trans a b a h hba
    rw [strLess_irrefl] at this
    cases this
theorem insert_entry (e : User × Char) (entries : List (User × Char))
    (hs : entries.Pairwise EmailBefore) (hnew : ∀ x ∈ entries, x.1.email ≠ e.1.email) :
    ∃ es : List (User × Char),
      es.map recordEntry = mapAssign e.1.email (e.2 == 'p') (entries.map recordEntry) ∧
      es.Perm (e :: entries) ∧ es.Pairwise EmailBefore := by
  induction entries with
  | nil => exact ⟨[e], rfl, List.Perm.refl _, List.pairwise_singleton _ _⟩
  | cons x xs ih =>
    have hx := List.pairwise_cons.1 hs
    by_cases h1 : strLess e.1.email.data x.1.email.data = true
    · refine ⟨e :: x :: xs, ?_, List.Perm.refl _, ?_⟩
      · simp [mapAssign, recordEntry, h1]
      · refine List.pairwise_cons.2 ⟨?_, hs⟩
        intro y hy
        rcases List.mem_cons.1 hy with rfl | hy
        · exact h1
        · exact strLess_trans _ _ _ h1 (hx.1 y hy)
    · by_cases h2 : strLess x.1.email.data e.1.email.data = true
      · obtain ⟨es, hmap, hperm, hsorted⟩ := ih hx.2 (fun y hy => hnew y (by simp [hy]))
        refine ⟨x :: es, ?_, ?_, ?_⟩
        · simp only [List.map_cons, hmap]
          simp [mapAssign, recordEntry, h1, h2]
        · exact (List.Perm.cons x hperm).trans (List.Perm.swap e x xs)
        · refine List.pairwise_cons.2 ⟨?_, hsorted⟩
          intro y hy
          rcases List.mem_cons.1 (hperm.subset hy) with rfl | hy
          · exact h2
          · exact hx.1 y hy
      · exfalso
        have hd := strLess_connex _ _ (by simpa using h1) (by simpa using h2)
        exact hnew x (by simp) (String.ext hd).symm

theorem fold_entries (pairs : List (User × Char)) (entries : List (User × Char))
    (hs : entries.Pairwise EmailBefore) (hnd : (pairs.map (fun p => p.1.email)).Nodup)
    (hdisj : ∀ x ∈ entries, ∀ p ∈ pairs, x.1.email ≠ p.1.email) :
    ∃ es : List (User × Char),
      es.map recordEntry =
        pairs.foldl (fun m p => mapAssign p.1.email (p.2 == 'p') m) (entries.map recordEntry) ∧
      es.Perm (entries ++ pairs) ∧ es.Pairwise EmailBefore := by
  induction pairs generalizing entries with
  | nil => exact ⟨entries, rfl, by simp, hs⟩
  | cons p ps ih =>
    rw [List.map_cons, List.nodup_cons] at hnd
    obtain ⟨es1, hmap1, hperm1, hs1⟩ :=
      insert_entry p entries hs (fun x hx => hdisj x hx p (by simp))
    have hdisj1 : ∀ x ∈ es1, ∀ q ∈ ps, x.1.email ≠ q.1.email := by
      intro x hx q hq
      rcases List.mem_cons.1 (hperm1.subset hx) with rfl | hx
      · intro he
        exact hnd.1 (List.mem_map.2 ⟨q, hq, he.symm⟩)
      · exact hdisj x hx q (by simp [hq])
    obtain ⟨es, hmap, hperm, hsorted⟩ := ih es1 hs1 hnd.2 hdisj1
    refine ⟨es, ?_, ?_, hsorted⟩
    · rw [hmap, hmap1]; rfl
    · refine hperm.trans ?_
      refine (List.Perm.append_right ps hperm1).trans ?_
      simp only [List.cons_append]
      exact (List.perm_middle).symm

theorem markLoop_valid (fuel : Nat) (pc : Option Char) (w : World) (c : Char)
    (rest : List Char) (hc : c = 'p' ∨ c = 'a') (hcin : w.cin = console (c :: '\n' :: rest)) :
    markLoop (fuel + 1) pc w = some (c, { w with cin := console rest }) := by
  rcases hc with rfl | rfl <;>
    simp [markLoop, World.extractChar, IStream.extractChar, IStream.good, hcin, console,
      isspace, tolower, ignoreLine, IStream.ignore, splitLine]

theorem attendanceLoop_marks (fuel : Nat) (us : List User) (marks : List Char)
    (rest : List Char) (pc : Option Char) (m : List (String × Bool)) (n : Nat) (w0 : World)
    (hlen : marks.length = (us.filter (fun u => u.role = Role.STUDENT)).length)
    (hvalid : ∀ c ∈ marks, c = 'p' ∨ c = 'a')
    (hcin : w0.cin = console (markKeys marks rest)) :
    ∃ w1, attendanceLoop (fuel + 1) us pc m n w0 =
        some (((us.filter (fun u => u.role = Role.STUDENT)).zip marks).foldl
          (fun m p => mapAssign p.1.email (p.2 == 'p') m) m, n + marks.length, w1) ∧
      w1.cin = console rest ∧ w1.users = w0.users ∧
      w1.cout = w0.cout ++ (us.filter (fun u => u.role = Role.STUDENT)).map markPrompt := by
  induction us generalizing marks pc m n w0 with
  | nil =>
    have hm : marks = [] := List.length_eq_zero.1 (by simpa using hlen)
    subst hm
    exact ⟨w0, rfl, hcin, rfl, by simp⟩
  | cons u us ih =>
    by_cases hu : u.role = Role.STUDENT
    · cases marks with
      | nil => simp [hu] at hlen
      | cons c cs =>
        have hlen1 : cs.length = (us.filter (fun u => u.role = Role.STUDENT)).length := by
          simpa [hu] using hlen
        have hc := hvalid c (by simp)
        have hml := markLoop_valid fuel pc
          (w0.put ("- " ++ u.name ++ " (" ++ u.roleSpecificData ++ "): ")) c
          (markKeys cs rest) hc (by simpa [World.put, markKeys] using hcin)
        obtain ⟨w1, hloop, h1, h2, h3⟩ := ih cs (some c)
          (mapAssign u.email (c == 'p') m) (n + 1)
          { (w0.put ("- " ++ u.name ++ " (" ++ u.roleSpecificData ++ "): ")) with
            cin := console (markKeys cs rest) }
          hlen1 (fun d hd => hvalid d (by simp [hd])) rfl
        refine ⟨w1, ?_, h1, h2, ?_⟩
        · rw [attendanceLoop, if_pos hu, hml]
          simp only [hloop, List.filter_cons, hu, decide_True, if_true, List.zip_cons_cons,
            List.foldl_cons, List.length_cons]
          have : n + 1 + cs.length = n + (cs.length + 1) := by omega
          rw [this]
        · rw [h3]
          simp [World.put, hu, markPrompt]
    · obtain ⟨w1, hloop, h1, h2, h3⟩ := ih marks pc m n w0 (by simpa [hu] using hlen) hvalid hcin
      refine ⟨w1, ?_, h1, h2, ?_⟩
      · rw [attendanceLoop, if_neg hu, hloop]
        simp [hu]
      · rw [h3]; simp [hu]

theorem findStudentName_own (users : List User) (h : EmailsUnique users) (u : User)
    (hu : u ∈ users) : findStudentName users u.email = u.name := by
  unfold findStudentName
  cases hf : users.find? (fun user => user.email == u.email) with
  | none =>
    rw [List.find?_eq_none] at hf
    exact absurd (by simp) (hf u hu)
  | some v =>
    have hv := List.mem_of_find?_eq_some hf
    have he := List.find?_some hf
    simp only [beq_iff_eq] at he
    rw [emailsUnique_inj users h v u hv hu he]

theorem summaryLine_own (users : List User) (h : EmailsUnique users) (e : User × Char)
    (hu : e.1 ∈ users) :
    summaryLine users (recordEntry e) =
      e.1.name ++ ": " ++ (if e.2 = 'p' then "Present" else "Absent") ++ "\n" := by
  unfold summaryLine recordEntry
  rw [findStudentName_own users h e.1 hu]
  by_cases hp : e.2 = 'p' <;> simp [hp]

theorem attendanceReport_cout (subject date : String) (m : List (String × Bool)) (n : Nat)
    (w : World) (hn : n ≠ 0) :
    (attendanceReport subject date m n w).cout = w.cout ++
      ["\n--- Attendance Summary (" ++ subject ++ " - " ++ date ++ ") ---\n"] ++
      m.map (summaryLine w.users) ++
      ["--------------------------------------------------------\n",
       "Attendance Recorded (Simulated Save).\n", "----------------------\n"] := by
  simp [attendanceReport, hn, World.put, puts_cout]

/-- C8. Attendance summary content and order: in a state reachable from the
seeded start, when the teacher types a subject, a date and one valid mark (`p`
or `a`) for each Student-role user, `handleAttendanceTaking` returns, and after
its header and one prompt per student it prints the summary title and then
exactly one line per student, for the students paired with their marks and
arranged in ascending order of email (the key order of the map), each line
giving the name of that student and "Present" for `p`, "Absent" for `a`. -/
theorem attendance_summary (fuel : Nat) (w : World) (hreach : Reachable w)
    (subject date : String) (marks : List Char) (rest : List Char)
    (hs : OneLine subject) (hd : OneLine date)
    (hlen : marks.length = (w.users.filter (fun u => u.role = Role.STUDENT)).length)
    (hvalid : ∀ c ∈ marks, c = 'p' ∨ c = 'a')
    (hcin : w.cin = console (line subject (line date (markKeys marks rest)))) :
    ∃ (entries : List (User × Char)) (w1 : World),
      handleAttendanceTaking (fuel + 1) w = some w1 ∧
      entries.Perm ((w.users.filter (fun u => u.role = Role.STUDENT)).zip marks) ∧
      entries.Pairwise (fun a b => strLess a.1.email.data b.1.email.data = true) ∧
      w1.cout = w.cout ++
        ["--- Take Attendance ---\n", "Enter Subject Name: ",
         "Enter Date (e.g., 15 Feb 2024): ", "----------------------\n",
         "Mark Attendance (P=Present, A=Absent):\n"] ++
        (w.users.filter (fun u => u.role = Role.STUDENT)).map markPrompt ++
        ["\n--- Attendance Summary (" ++ subject ++ " - " ++ date ++ ") ---\n"] ++
        entries.map (fun e =>
          e.1.name ++ ": " ++ (if e.2 = 'p' then "Present" else "Absent") ++ "\n") ++
        ["--------------------------------------------------------\n",
         "Attendance Recorded (Simulated Save).\n", "----------------------\n"] := by
  obtain ⟨hseed, huniq, -⟩ := reachable_usersInv w hreach
  -- the students' emails are pairwise different
  have hsub : ((w.users.filter (fun u => u.role = Role.STUDENT)).map User.email).Sublist
      (w.users.map User.email) := (List.filter_sublist _).map _
  have hnd : (((w.users.filter (fun u => u.role = Role.STUDENT)).zip marks).map
      (fun p => p.1.email)).Nodup := by
    have e : ((w.users.filter (fun u => u.role = Role.STUDENT)).zip marks).map
        (fun p => p.1.email) =
        (((w.users.filter (fun u => u.role = Role.STUDENT)).zip marks).map Prod.fst).map
          User.email := by
      rw [List.map_map]; rfl
    rw [e, List.map_fst_zip _ _ (le_of_eq hlen.symm)]
    exact hsub.nodup huniq
  obtain ⟨es, hmap, hperm, hsorted⟩ := fold_entries _ [] List.Pairwise.nil hnd
    (fun x hx => absurd hx (List.not_mem_nil x))
  -- there is at least one student: Alice, seeded
  have halice : (seedUsers.get ⟨0, by decide⟩) ∈
      w.users.filter (fun u => u.role = Role.STUDENT) := by
    refine List.mem_filter.2 ⟨hseed.subset (by decide), by decide⟩
  have hpos : 0 + marks.length ≠ 0 := by
    rw [hlen]
    have := List.length_pos_of_mem halice
    omega
  -- the marking loop
  obtain ⟨w4, hloop, -, hu4, hc4⟩ := attendanceLoop_marks fuel w.users marks rest none [] 0
    { w with cin := console (markKeys marks rest),
             cout := w.cout ++ ["--- Take Attendance ---\n", "Enter Subject Name: ",
               "Enter Date (e.g., 15 Feb 2024): ", "----------------------\n",
               "Mark Attendance (P=Present, A=Absent):\n"] }
    hlen hvalid rfl
  refine ⟨es, attendanceReport subject date
    (((w.users.filter (fun u => u.role = Role.STUDENT)).zip marks).foldl
      (fun m p => mapAssign p.1.email (p.2 == 'p') m) []) (0 + marks.length) w4,
    ?_, ?_, hsorted, ?_⟩
  · simp only [handleAttendanceTaking, World.put, World.getline, clearScreen, hcin,
      getline_line, hs, hd, List.append_assoc, List.singleton_append, List.cons_append,
      List.nil_append]
    rw [hloop]
  · simpa using hperm
  · rw [attendanceReport_cout _ _ _ _ _ hpos, hc4, hu4]
    have hlines : (((w.users.filter (fun u => u.role = Role.STUDENT)).zip marks).foldl
        (fun m p => mapAssign p.1.email (p.2 == 'p') m) []).map (summaryLine w.users) =
        es.map (fun e =>
          e.1.name ++ ": " ++ (if e.2 = 'p' then "Present" else "Absent") ++ "\n") := by
      have : ([] : List (String × Bool)) = List.map recordEntry [] := rfl
      rw [this, ← hmap, List.map_map]
      apply List.map_congr_left
      intro e he
      have hmem : e ∈ (w.users.filter (fun u => u.role = Role.STUDENT)).zip marks := by
        have := hperm.subset he
        simpa using this
      have hu : e.1 ∈ w.users := by
        obtain ⟨a, b⟩ := e
        exact List.mem_of_mem_filter (List.of_mem_zip hmem).1
      exact summaryLine_own w.users huniq e hu
    rw [hlines]

/-- Witness for C8: at the seeded start, with `p` typed for Alice and `a` for
Bob, the summary reports Bob (whose email comes first in key order) as Absent
and Alice as Present. -/
theorem attendance_summary_witness :
    (∃ (entries : List (User × Char)) (w1 : World),
      handleAttendanceTaking 1 (initialWorld attendanceKeys) = some w1 ∧
      entries.Perm (((initialWorld attendanceKeys).users.filter
        (fun u => u.role = Role.STUDENT)).zip ['p', 'a']) ∧
      entries.Pairwise (fun a b => strLess a.1.email.data b.1.email.data = true) ∧
      w1.cout = (initialWorld attendanceKeys).cout ++
        ["--- Take Attendance ---\n", "Enter Subject Name: ",
         "Enter Date (e.g., 15 Feb 2024): ", "----------------------\n",
         "Mark Attendance (P=Present, A=Absent):\n"] ++
        ((initialWorld attendanceKeys).users.filter
          (fun u => u.role = Role.STUDENT)).map markPrompt ++
        ["\n--- Attendance Summary (" ++ "Maths" ++ " - " ++ "15 Feb 2024" ++ ") ---\n"] ++
        entries.map (fun e =>
          e.1.name ++ ": " ++ (if e.2 = 'p' then "Present" else "Absent") ++ "\n") ++
        ["--------------------------------------------------------\n",
         "Attendance Recorded (Simulated Save).\n", "----------------------\n"]) ∧
    (handleAttendanceTaking 1 (initialWorld attendanceKeys)).map World.cout = some
      ["--- Take Attendance ---\n", "Enter Subject Name: ",
       "Enter Date (e.g., 15 Feb 2024): ", "----------------------\n",
       "Mark Attendance (P=Present, A=Absent):\n",
       "- Alice Smith (S1001): ", "- Bob Johnson (S1002): ",
       "\n--- Attendance Summary (Maths - 15 Feb 2024) ---\n",
       "Bob Johnson: Absent\n", "Alice Smith: Present\n",
       "--------------------------------------------------------\n",
       "Attendance Recorded (Simulated Save).\n", "----------------------\n"] :=
  ⟨attendance_summary 0 (initialWorld attendanceKeys) (Reachable.start attendanceKeys)
    "Maths" "15 Feb 2024" ['p', 'a'] [] (by decide) (by decide) (by decide) (by decide) rfl,
   by decide⟩

/-! ## Attendance with no students -/

theorem attendanceLoop_no_students (fuel : Nat) (us : List User)
    (h : ∀ u ∈ us, u.role ≠ Role.STUDENT) (pc : Option Char) (m : List (String × Bool))
    (n : Nat) (w : World) : attendanceLoop fuel us pc m n w = some (m, n, w) := by
  induction us with
  | nil => rfl
  | cons u us ih =>
    rw [attendanceLoop, if_neg (h u (by simp))]
    exact ih (fun v hv => h v (by simp [hv]))

/-- C9. Attendance with no students: on a store in which no user is a Student,
whatever the input and the fuel, the marking loop prompts for nothing, reads
nothing and returns the empty record with count 0, and `handleAttendanceTaking`
returns having read only the subject and the date and having printed its
header, "No students found to take attendance for." and the closing rule, with
no attendance summary. -/
theorem attendance_no_students (fuel : Nat) (w : World)
    (h : ∀ u ∈ w.users, u.role ≠ Role.STUDENT) :
    (∀ w0 : World, attendanceLoop fuel w.users none [] 0 w0 = some ([], 0, w0)) ∧
    ∃ w1, handleAttendanceTaking fuel w = some w1 ∧
      w1.cout = w.cout ++ ["--- Take Attendance ---\n", "Enter Subject Name: ",
        "Enter Date (e.g., 15 Feb 2024): ", "----------------------\n",
        "Mark Attendance (P=Present, A=Absent):\n",
        "No students found to take attendance for.\n", "----------------------\n"] ∧
      w1.cin = ((w.cin.getline).2.getline).2 := by
  refine ⟨fun w0 => attendanceLoop_no_students fuel w.users h none [] 0 w0, ?_⟩
  have hl := attendanceLoop_no_students fuel w.users h none [] 0
  simp [handleAttendanceTaking, World.put, World.getline, clearScreen, hl, attendanceReport]

/-- Witness for C9: a store holding only the seeded teacher and staff member. -/
theorem attendance_no_students_witness :
    ∃ w1, handleAttendanceTaking 0 (staffOnlyWorld (line "Maths" (line "15 Feb 2024" []))) =
        some w1 ∧
      w1.cout = ["--- Take Attendance ---\n", "Enter Subject Name: ",
        "Enter Date (e.g., 15 Feb 2024): ", "----------------------\n",
        "Mark Attendance (P=Present, A=Absent):\n",
        "No students found to take attendance for.\n", "----------------------\n"] ∧
      w1.cin = console [] :=
  (attendance_no_students 0 (staffOnlyWorld (line "Maths" (line "15 Feb 2024" [])))
    (by decide)).2

/-! ## The view screens -/

theorem complaintLines_enum (k n : Nat) (l : List Complaint) :
    complaintLines (k + n) l =
      ((l.enumFrom k).map (fun p => complaintEntry (p.1 + n) p.2)).flatten := by
  induction l generalizing k with
  | nil => simp [complaintLines]
  | cons c l ih =>
    have e : k + n + 1 = (k + 1) + n := by omega
    simp only [complaintLines, List.enumFrom_cons, List.map_cons, List.flatten_cons]
    rw [e, ih (k + 1)]

theorem noticeLines_enum (k n : Nat) (l : List LeaveNotice) :
    noticeLines (k + n) l =
      ((l.enumFrom k).map (fun p => noticeEntry (p.1 + n) p.2)).flatten := by
  induction l generalizing k with
  | nil => simp [noticeLines]
  | cons c l ih =>
    have e : k + n + 1 = (k + 1) + n := by omega
    simp only [noticeLines, List.enumFrom_cons, List.map_cons, List.flatten_cons]
    rw [e, ih (k + 1)]

theorem ends_differ (a s t : String) (x y : Char) (ys : List Char)
    (hs : s.data = [x, '\n']) (ht : t.data = ys ++ [y, '\n']) (hxy : x ≠ y) : a ++ s ≠ t := by
  intro h
  have hd := congrArg String.data h
  rw [String.data_append, hs, ht] at hd
  have hr := congrArg List.reverse hd
  simp only [List.reverse_append, List.reverse_cons, List.reverse_nil, List.nil_append,
    List.singleton_append, List.cons_append, List.cons.injEq, true_and] at hr
  exact hxy hr.1

theorem starts_differ (s a b t : String) (x y : Char) (xs ys : List Char)
    (hs : s.data = x :: xs) (ht : t.data = y :: ys) (hxy : x ≠ y) : s ++ a ++ b ≠ t := by
  intro h
  have hd := congrArg String.data h
  rw [String.data_append, String.data_append, hs, ht] at hd
  simp only [List.cons_append, List.cons.injEq] at hd
  exact hxy hd.1

theorem no_complaints_not_in_lines (n : Nat) (l : List Complaint) :
    "No complaints have been submitted yet.\n" ∉ complaintLines n l := by
  induction l generalizing n with
  | nil => simp [complaintLines]
  | cons c l ih =>
    simp only [complaintLines, complaintEntry, List.cons_append, List.nil_append,
      List.mem_cons, not_or]
    refine ⟨?_, ?_, by decide, ih (n + 1)⟩
    · exact fun h => ends_differ _ ")\n" _ ')' '.'
        "No complaints have been submitted yet".data rfl rfl (by decide) h.symm
    · exact fun h => starts_differ "   Complaint: " _ _ _ ' ' 'N' _ _ rfl rfl (by decide) h.symm

theorem no_notices_not_in_lines (n : Nat) (l : List LeaveNotice) :
    "No leave notices have been submitted yet.\n" ∉ noticeLines n l := by
  induction l generalizing n with
  | nil => simp [noticeLines]
  | cons c l ih =>
    simp only [noticeLines, noticeEntry, List.cons_append, List.nil_append,
      List.mem_cons, not_or]
    refine ⟨?_, ?_, ?_, by decide, ih (n + 1)⟩
    · exact fun h => ends_differ _ ")\n" _ ')' '.'
        "No leave notices have been submitted yet".data rfl rfl (by decide) h.symm
    · exact fun h => starts_differ "   Dates: " _ _ _ ' ' 'N' _ _ rfl rfl (by decide) h.symm
    · exact fun h => starts_differ "   Reason: " _ _ _ ' ' 'N' _ _ rfl rfl (by decide) h.symm

/-- C10. The teacher's view screens render the stores faithfully:
`viewStudentComplaints` prints its title, then either the one line "No
complaints have been submitted yet." when the store is empty, or else, for
every complaint in store order, the label (position counted from 0, plus 1)
with the stored name and email, the stored message, and a rule; the "no
complaints" line is printed exactly when the store is empty.
`viewStudentLeaveNotices` does the same for the leave notices, with the line
"No leave notices have been submitted yet.", showing the dates and the reason
of each notice. -/
theorem view_screens_faithful (w : World) :
    ((viewStudentComplaints w).cout = w.cout ++ ["--- Received Student Complaints ---\n"] ++
        (if w.studentComplaints = [] then ["No complaints have been submitted yet.\n"]
         else (w.studentComplaints.enum.map (fun p =>
            [toString (p.1 + 1) ++ ". From: " ++ p.2.studentName ++ " (" ++ p.2.studentEmail
                ++ ")\n",
             "   Complaint: " ++ p.2.message ++ "\n",
             "---------------------------------------\n"])).flatten) ++
        ["-----------------------------------\n"]) ∧
    ("No complaints have been submitted yet.\n" ∈
        (viewStudentComplaints w).cout.drop w.cout.length ↔ w.studentComplaints = []) ∧
    ((viewStudentLeaveNotices w).cout =
        w.cout ++ ["--- Received Student Leave Notices ---\n"] ++
        (if w.studentLeaveNotices = [] then ["No leave notices have been submitted yet.\n"]
         else (w.studentLeaveNotices.enum.map (fun p =>
            [toString (p.1 + 1) ++ ". From: " ++ p.2.studentName ++ " (" ++ p.2.studentEmail
                ++ ")\n",
             "   Dates: " ++ p.2.dates ++ "\n",
             "   Reason: " ++ p.2.reason ++ "\n",
             "----------------------------------------\n"])).flatten) ++
        ["--------------------------------------\n"]) ∧
    ("No leave notices have been submitted yet.\n" ∈
        (viewStudentLeaveNotices w).cout.drop w.cout.length ↔ w.studentLeaveNotices = []) := by
  have hc : (viewStudentComplaints w).cout = w.cout ++ ("--- Received Student Complaints ---\n"
      :: ((if w.studentComplaints = [] then ["No complaints have been submitted yet.\n"]
           else complaintLines 1 w.studentComplaints) ++
          ["-----------------------------------\n"])) := by
    cases hl : w.studentComplaints with
    | nil => simp [viewStudentComplaints, clearScreen, World.put, hl]
    | cons c l => simp [viewStudentComplaints, clearScreen, World.put, hl, puts_cout]
  have hn : (viewStudentLeaveNotices w).cout =
      w.cout ++ ("--- Received Student Leave Notices ---\n"
      :: ((if w.studentLeaveNotices = [] then ["No leave notices have been submitted yet.\n"]
           else noticeLines 1 w.studentLeaveNotices) ++
          ["--------------------------------------\n"])) := by
    cases hl : w.studentLeaveNotices with
    | nil => simp [viewStudentLeaveNotices, clearScreen, World.put, hl]
    | cons c l => simp [viewStudentLeaveNotices, clearScreen, World.put, hl, puts_cout]
  have ec := complaintLines_enum 0 1 w.studentComplaints
  have en := noticeLines_enum 0 1 w.studentLeaveNotices
  simp only [Nat.zero_add] at ec en
  refine ⟨?_, ?_, ?_, ?_⟩
  · rw [hc, ec]; simp [complaintEntry, List.enum]
  · rw [hc, List.drop_left]
    by_cases he : w.studentComplaints = []
    · simp [he]
    · have := no_complaints_not_in_lines 1 w.studentComplaints
      simp only [he, if_false, List.mem_cons, List.mem_append, List.mem_singleton, iff_false,
        not_or]
      exact ⟨by decide, this, by decide⟩
  · rw [hn, en]; simp [noticeEntry, List.enum]
  · rw [hn, List.drop_left]
    by_cases he : w.studentLeaveNotices = []
    · simp [he]
    · have := no_notices_not_in_lines 1 w.studentLeaveNotices
      simp only [he, if_false, List.mem_cons, List.mem_append, List.mem_singleton, iff_false,
        not_or]
      exact ⟨by decide, this, by decide⟩

/-- A sample of the view screens on a store with two complaints. -/
theorem view_screens_sample :
    (viewStudentComplaints filledWorld).cout =
      ["--- Received Student Complaints ---\n",
       "1. From: Alice Smith (student@test.com)\n", "   Complaint: No water\n",
       "---------------------------------------\n",
       "2. From: Bob Johnson (student2@test.com)\n", "   Complaint: Noisy hall\n",
       "---------------------------------------\n",
       "-----------------------------------\n"] ∧
    (viewStudentLeaveNotices filledWorld).cout =
      ["--- Received Student Leave Notices ---\n",
       "1. From: Bob Johnson (student2@test.com)\n", "   Dates: 25 Feb 2024\n",
       "   Reason: Family event\n", "----------------------------------------\n",
       "--------------------------------------\n"] := by
  decide

/-! ## More fuel changes no result -/

theorem choiceLoop_mono (fuel : Nat) (choice : Int) (w : World) (r : Int × World)
    (h : choiceLoop fuel choice w = some r) (fuel1 : Nat) (hle : fuel ≤ fuel1) :
    choiceLoop fuel1 choice w = some r := by
  induction fuel generalizing choice w fuel1 with
  | zero => simp [choiceLoop] at h
  | succ n ih =>
    obtain ⟨k, rfl⟩ : ∃ k, fuel1 = k + 1 := ⟨fuel1 - 1, by omega⟩
    rw [choiceLoop] at h ⊢
    split
    · next hc => rw [if_pos hc] at h; exact ih _ _ h k (by omega)
    · next hc => rw [if_neg hc] at h; exact h

theorem handleRegistration_mono (fuel : Nat) (w w1 : World)
    (h : handleRegistration fuel w = some w1) (fuel1 : Nat) (hle : fuel ≤ fuel1) :
    handleRegistration fuel1 w = some w1 := by
  unfold handleRegistration at h ⊢
  dsimp only at h ⊢
  split
  · next hany => rw [if_pos hany] at h; exact h
  · next hany =>
    rw [if_neg hany] at h
    split at h
    · cases h
    · next roleChoice w7 hloop =>
      rw [choiceLoop_mono _ _ _ _ hloop fuel1 hle]
      dsimp only at h ⊢
      split
      · next h1 => rw [if_pos h1] at h; exact h
      · next h1 =>
        rw [if_neg h1] at h
        split
        · next h2 => rw [if_pos h2] at h; exact h
        · next h2 =>
          rw [if_neg h2] at h
          split
          · next h3 =>
            rw [if_pos h3] at h
            split at h
            · cases h
            · next staffChoice w10 hloop2 =>
              rw [choiceLoop_mono _ _ _ _ hloop2 fuel1 hle]
              exact h
          · next h3 => rw [if_neg h3] at h; cases h

theorem markLoop_mono (fuel : Nat) (pc : Option Char) (w : World) (r : Char × World)
    (h : markLoop fuel pc w = some r) (fuel1 : Nat) (hle : fuel ≤ fuel1) :
    markLoop fuel1 pc w = some r := by
  induction fuel generalizing pc w fuel1 with
  | zero => simp [markLoop] at h
  | succ n ih =>
    obtain ⟨k, rfl⟩ : ∃ k, fuel1 = k + 1 := ⟨fuel1 - 1, by omega⟩
    rw [markLoop] at h ⊢
    split
    · next hx => rw [hx] at h; cases h
    · next c hx =>
      rw [hx] at h
      dsimp only at h ⊢
      split
      · next hc => rw [if_pos hc] at h; exact h
      · next hc => rw [if_neg hc] at h; exact ih _ _ h k (by omega)

theorem attendanceLoop_mono (fuel : Nat) (us : List User) (pc : Option Char)
    (m : List (String × Bool)) (n : Nat) (w : World) (r : List (String × Bool) × Nat × World)
    (h : attendanceLoop fuel us pc m n w = some r) (fuel1 : Nat) (hle : fuel ≤ fuel1) :
    attendanceLoop fuel1 us pc m n w = some r := by
  induction us generalizing pc m n w with
  | nil => simpa [attendanceLoop] using h
  | cons u us ih =>
    rw [attendanceLoop] at h ⊢
    split
    · next hu =>
      rw [if_pos hu] at h
      split at h
      · cases h
      · next c w1 hm =>
        rw [markLoop_mono _ _ _ _ hm fuel1 hle]
        exact ih _ _ _ _ h
    · next hu => rw [if_neg hu] at h; exact ih _ _ _ _ h

theorem handleAttendanceTaking_mono (fuel : Nat) (w w1 : World)
    (h : handleAttendanceTaking fuel w = some w1) (fuel1 : Nat) (hle : fuel ≤ fuel1) :
    handleAttendanceTaking fuel1 w = some w1 := by
  unfold handleAttendanceTaking at h ⊢
  dsimp only at h ⊢
  split at h
  · cases h
  · next m n w4 hl =>
    rw [attendanceLoop_mono _ _ _ _ _ _ _ hl fuel1 hle]
    exact h

theorem teacherAction_mono (fuel : Nat) (choice : Int) (w w1 : World)
    (h : teacherAction fuel choice w = some w1) (fuel1 : Nat) (hle : fuel ≤ fuel1) :
    teacherAction fuel1 choice w = some w1 := by
  unfold teacherAction at h ⊢
  by_cases h3 : choice = 3
  · subst h3
    simp only [show ¬ ((3 : Int) = 1) by decide, show ¬ ((3 : Int) = 2) by decide,
      if_false, if_true] at h ⊢
    exact handleAttendanceTaking_mono _ _ _ h fuel1 hle
  · simp only [h3, if_false] at h ⊢
    exact h

theorem teacherRound_mono (fuel : Nat) (user : User) (w : World) (r : World × Bool)
    (h : teacherRound fuel user w = some r) (fuel1 : Nat) (hle : fuel ≤ fuel1) :
    teacherRound fuel1 user w = some r := by
  unfold teacherRound at h ⊢
  dsimp only at h ⊢
  split
  · next hf => rw [if_pos hf] at h; exact h
  · next hf =>
    rw [if_neg hf] at h
    split
    · next h6 => rw [if_pos h6] at h; exact h
    · next h6 =>
      rw [if_neg h6] at h
      split at h
      · cases h
      · next w4 ha =>
        rw [teacherAction_mono _ _ _ _ ha fuel1 hle]
        exact h

/-! ## The menu machine is the program -/

theorem menuRun_append (fuel a b : Nat) (m m1 m2 : Machine)
    (h1 : menuRun fuel a m = some m1) (h2 : menuRun fuel b m1 = some m2) :
    menuRun fuel (a + b) m = some m2 := by
  induction a generalizing m with
  | zero =>
    simp only [menuRun, Option.some.injEq] at h1
    subst h1
    simpa using h2
  | succ n ih =>
    have e : n + 1 + b = (n + b) + 1 := by omega
    rw [e, menuRun]
    rw [menuRun] at h1
    split at h1
    · cases h1
    · next m3 hs =>
      exact ih m3 h1

theorem menuRun_one (fuel : Nat) (m m1 : Machine) (h : menuStep fuel m = some m1) :
    menuRun fuel 1 m = some m1 := by
  simp [menuRun, h]

theorem student_run (fuel : Nat) (user : User) (w w1 : World)
    (h : showStudentDashboard fuel user w = some w1) (fuel1 : Nat) (b : Bool) :
    ∃ n, menuRun fuel1 n
        { screen := Screen.studentDashboard,
          st := { loggedIn := b, currentUser := user, world := w } } =
      some (backToMenu w1) := by
  induction fuel generalizing w with
  | zero => simp [showStudentDashboard] at h
  | succ k ih =>
    rw [showStudentDashboard] at h
    split at h
    · next hr =>
      cases h
      exact ⟨1, menuRun_one _ _ _ (by simp [menuStep, hr])⟩
    · next hr =>
      obtain ⟨n, hn⟩ := ih _ h
      exact ⟨1 + n, menuRun_append _ _ _ _ _ _ (menuRun_one _ _ _ (by simp [menuStep, hr])) hn⟩

theorem teacher_run (fuel : Nat) (user : User) (w w1 : World)
    (h : showTeacherDashboard fuel user w = some w1) (fuel1 : Nat) (hle : fuel ≤ fuel1)
    (b : Bool) :
    ∃ n, menuRun fuel1 n
        { screen := Screen.teacherDashboard,
          st := { loggedIn := b, currentUser := user, world := w } } =
      some (backToMenu w1) := by
  induction fuel generalizing w with
  | zero => simp [showTeacherDashboard] at h
  | succ k ih =>
    rw [showTeacherDashboard] at h
    split at h
    · cases h
    · next w2 hr =>
      cases h
      have := teacherRound_mono _ _ _ _ hr fuel1 (by omega)
      exact ⟨1, menuRun_one _ _ _ (by simp [menuStep, this])⟩
    · next w2 hr =>
      have := teacherRound_mono _ _ _ _ hr fuel1 (by omega)
      obtain ⟨n, hn⟩ := ih _ h (by omega)
      exact ⟨1 + n, menuRun_append _ _ _ _ _ _
        (menuRun_one _ _ _ (by simp [menuStep, this])) hn⟩

theorem dashboard_run (fuel : Nat) (user : User) (w w1 : World)
    (h : showDashboard fuel user w = some w1) (fuel1 : Nat) (hle : fuel ≤ fuel1) (b : Bool) :
    ∃ n, menuRun fuel1 n
        { screen := dashboardOf user.role,
          st := { loggedIn := b, currentUser := user, world := w } } =
      some (backToMenu w1) := by
  unfold showDashboard at h
  split at h
  · next hr => rw [hr]; exact student_run _ _ _ _ h fuel1 b
  · next hr => rw [hr]; exact teacher_run _ _ _ _ h fuel1 hle b
  · next hr =>
    rw [hr]
    cases h
    exact ⟨1, menuRun_one _ _ _ (by simp [menuStep, dashboardOf])⟩

/-- The screen at which a round of `main` ends: past `return` with the code
when it returned, back at the main menu otherwise. -/
theorem round_run (fuel : Nat) (st st1 : MainState) (oc : Option Int)
    (h : mainRound fuel st = some (st1, oc)) (fuel1 : Nat) (hle : fuel ≤ fuel1) :
    ∃ n, menuRun fuel1 n { screen := Screen.mainMenu, st := st } =
      some { screen := (match oc with
                        | some code => Screen.exited code
                        | none => Screen.mainMenu),
             st := st1 } := by
  unfold mainRound at h
  dsimp only at h
  split at h
  · next hf =>
    cases h
    exact ⟨1, menuRun_one _ _ _ (by simp [menuStep, hf])⟩
  · next hf =>
    split at h
    · next h1 =>
      split at h
      · next hlog =>
        split at h
        · cases h
        · next w4 hd =>
          cases h
          obtain ⟨n, hn⟩ := dashboard_run _ _ _ _ hd fuel1 hle true
          refine ⟨1 + n, menuRun_append _ _ _ _ _ _ (menuRun_one _ _ _ ?_) hn⟩
          simp [menuStep, hf, h1, hlog]
      · next hlog =>
        cases h
        exact ⟨1, menuRun_one _ _ _ (by simp [menuStep, hf, h1, hlog])⟩
    · next h1 =>
      split at h
      · next h2 =>
        split at h
        · cases h
        · next w4 hreg =>
          cases h
          have := handleRegistration_mono _ _ _ hreg fuel1 hle
          exact ⟨1, menuRun_one _ _ _ (by simp [menuStep, hf, h1, h2, this])⟩
      · next h2 =>
        split at h
        · next h3 =>
          cases h
          exact ⟨1, menuRun_one _ _ _ (by simp [menuStep, hf, h3])⟩
        · next h3 =>
          cases h
          exact ⟨1, menuRun_one _ _ _ (by simp [menuStep, hf, h1, h2, h3])⟩

theorem mainLoop_run (fuel : Nat) (st : MainState) (code : Int) (w : World)
    (h : mainLoop fuel st = some (code, w)) (fuel1 : Nat) (hle : fuel ≤ fuel1) :
    ∃ n st1, menuRun fuel1 n { screen := Screen.mainMenu, st := st } =
      some { screen := Screen.exited code, st := st1 } ∧ st1.world = w := by
  induction fuel generalizing st with
  | zero => simp [mainLoop] at h
  | succ k ih =>
    rw [mainLoop] at h
    split at h
    · cases h
    · next st1 c hr =>
      cases h
      obtain ⟨n, hn⟩ := round_run _ _ _ _ hr fuel1 (by omega)
      exact ⟨n, st1, hn, rfl⟩
    · next st1 hr =>
      obtain ⟨n, hn⟩ := round_run _ _ _ _ hr fuel1 (by omega)
      obtain ⟨n2, st2, hn2, hw⟩ := ih _ h (by omega)
      exact ⟨n + n2, st2, menuRun_append _ _ _ _ _ _ hn hn2, hw⟩

/-! ## Leaving the program, leaving a dashboard -/

theorem mainMenu_choice (w : World) :
    (((displayMainMenu (clearScreen w)).put "Enter your choice: ").extractInt).1 =
        (w.cin.extractInt).1 ∧
    (((displayMainMenu (clearScreen w)).put "Enter your choice: ").extractInt).2.cin =
        (w.cin.extractInt).2 := by
  simp [World.extractInt, World.put, displayMainMenu, clearScreen, puts_cin]

theorem studentMenu_choice (user : User) (w : World) :
    ((studentMenu user w).extractInt).1 = (w.cin.extractInt).1 ∧
    ((studentMenu user w).extractInt).2.cin = (w.cin.extractInt).2 := by
  simp [World.extractInt, studentMenu, clearScreen, puts_cin]

theorem teacherMenu_choice (user : User) (w : World) :
    ((teacherMenu user w).extractInt).1 = (w.cin.extractInt).1 ∧
    ((teacherMenu user w).extractInt).2.cin = (w.cin.extractInt).2 := by
  simp [World.extractInt, teacherMenu, clearScreen, puts_cin]

theorem selected_eq (w : World) (v : Int) :
    selected w = some v ↔ (w.cin.extractInt).2.fail = false ∧ (w.cin.extractInt).1 = v := by
  unfold selected
  by_cases hf : (w.cin.extractInt).2.fail = true
  · simp [hf]
  · simp [hf]

theorem studentRound_returns (user : User) (w : World) :
    (studentRound user w).2 = true ↔ selected w = some 6 := by
  rw [selected_eq]
  have hc := studentMenu_choice user w
  unfold studentRound
  dsimp only
  rw [hc.1, hc.2]
  by_cases hf : (w.cin.extractInt).2.fail = true
  · simp [hf]
  · by_cases h6 : (w.cin.extractInt).1 = 6
    · simp [hf, h6]
    · simp [hf, h6]

theorem teacherRound_returns (fuel : Nat) (user : User) (w w1 : World) (b : Bool)
    (h : teacherRound fuel user w = some (w1, b)) : b = true ↔ selected w = some 6 := by
  rw [selected_eq]
  have hc := teacherMenu_choice user w
  unfold teacherRound at h
  dsimp only at h
  rw [hc.1, hc.2] at h
  by_cases hf : (w.cin.extractInt).2.fail = true
  · rw [if_pos hf] at h
    cases h
    simp [hf]
  · rw [if_neg hf] at h
    by_cases h6 : (w.cin.extractInt).1 = 6
    · rw [if_pos h6] at h
      cases h
      simp [hf, h6]
    · rw [if_neg h6] at h
      split at h
      · cases h
      · cases h
        simp [h6]

theorem menuStep_exit (fuel : Nat) (m m1 : Machine) (h : menuStep fuel m = some m1)
    (code : Int) (hx : m1.screen = Screen.exited code) :
    code = 0 ∧ m.screen = Screen.mainMenu ∧ selected m.st.world = some 3 := by
  obtain ⟨screen, st⟩ := m
  cases screen with
  | mainMenu =>
    have hc := mainMenu_choice st.world
    simp only [menuStep] at h
    rw [hc.1, hc.2] at h
    rw [selected_eq]
    by_cases hf : (st.world.cin.extractInt).2.fail = true
    · rw [if_pos hf] at h
      cases h
      cases hx
    · rw [if_neg hf] at h
      by_cases h1 : (st.world.cin.extractInt).1 = 1
      · rw [if_pos h1] at h
        split at h
        · cases h
          simp only at hx
          generalize (handleLogin st.currentUser _).2.1.role = r at hx
          cases r <;> cases hx
        · cases h
          cases hx
      · rw [if_neg h1] at h
        by_cases h2 : (st.world.cin.extractInt).1 = 2
        · rw [if_pos h2] at h
          split at h
          · cases h
          · cases h
            cases hx
        · rw [if_neg h2] at h
          by_cases h3 : (st.world.cin.extractInt).1 = 3
          · rw [if_pos h3] at h
            cases h
            simp only [Screen.exited.injEq] at hx
            exact ⟨hx.symm, rfl, by simpa using hf, h3⟩
          · rw [if_neg h3] at h
            cases h
            cases hx
  | studentDashboard =>
    simp only [menuStep] at h
    split at h <;> cases h <;> cases hx
  | teacherDashboard =>
    simp only [menuStep] at h
    split at h <;> cases h <;> cases hx
  | staffScreen =>
    simp only [menuStep] at h
    cases h
    cases hx
  | exited c => simp [menuStep] at h

theorem menuStep_dashboard (fuel : Nat) (m m1 : Machine) (h : menuStep fuel m = some m1)
    (hd : m.screen = Screen.studentDashboard ∨ m.screen = Screen.teacherDashboard) :
    (m1.screen = m.screen ∧ selected m.st.world ≠ some 6) ∨
    (m1 = backToMenu m1.st.world ∧ selected m.st.world = some 6) := by
  obtain ⟨screen, st⟩ := m
  rcases hd with hd | hd <;> simp only at hd <;> subst hd
  · simp only [menuStep] at h
    have hr := studentRound_returns st.currentUser st.world
    split at h
    · next hret =>
      cases h
      exact Or.inr ⟨rfl, hr.1 hret⟩
    · next hret =>
      cases h
      exact Or.inl ⟨rfl, fun hs => hret (hr.2 hs)⟩
  · simp only [menuStep] at h
    split at h
    · cases h
    · next w1 htr =>
      cases h
      exact Or.inr ⟨rfl, (teacherRound_returns _ _ _ _ _ htr).1 rfl⟩
    · next w1 htr =>
      cases h
      refine Or.inl ⟨rfl, fun hs => ?_⟩
      have := (teacherRound_returns _ _ _ _ _ htr).2 hs
      cases this

theorem menuStep_choice3 (fuel : Nat) (m : Machine) (hm : m.screen = Screen.mainMenu)
    (hs : selected m.st.world = some 3) :
    ∃ m1, menuStep fuel m = some m1 ∧ m1.screen = Screen.exited 0 ∧
      m1.st.world.users = m.st.world.users := by
  obtain ⟨screen, st⟩ := m
  simp only at hm
  subst hm
  rw [selected_eq] at hs
  have hc := mainMenu_choice st.world
  have hf : ¬ ((st.world.cin.extractInt).2.fail = true) := by simp [hs.1]
  refine ⟨Machine.mk (Screen.exited 0) (MainState.mk st.loggedIn st.currentUser
    ((ignoreLine ((displayMainMenu (clearScreen st.world)).put
      "Enter your choice: ").extractInt.2).put "Exiting College Alerter. Goodbye!\n")),
    ?_, rfl, ?_⟩
  · simp only [menuStep]
    rw [hc.1, hc.2, if_neg hf, hs.2]
    simp
  · simp [World.put, ignoreLine, World.extractInt, displayMainMenu, clearScreen, puts_users]

theorem menuRun_exit (fuel n : Nat) (m0 m1 : Machine) (h : menuRun fuel n m0 = some m1)
    (code : Int) (hx : m1.screen = Screen.exited code)
    (h0 : ∀ c, m0.screen ≠ Screen.exited c) :
    code = 0 ∧ ∃ k m, k < n ∧ menuRun fuel k m0 = some m ∧ m.screen = Screen.mainMenu ∧
      selected m.st.world = some 3 ∧ menuStep fuel m = some m1 := by
  induction n generalizing m0 with
  | zero =>
    simp only [menuRun, Option.some.injEq] at h
    subst h
    exact absurd hx (h0 code)
  | succ n ih =>
    rw [menuRun] at h
    split at h
    · cases h
    · next m2 hs =>
      by_cases hm2 : ∃ c, m2.screen = Screen.exited c
      · obtain ⟨c, hc⟩ := hm2
        have hn : n = 0 := by
          cases n with
          | zero => rfl
          | succ j =>
            rw [menuRun] at h
            have : menuStep fuel m2 = none := by
              obtain ⟨s2, st2⟩ := m2
              simp only at hc
              subst hc
              rfl
            rw [this] at h
            cases h
        subst hn
        simp only [menuRun, Option.some.injEq] at h
        subst h
        obtain ⟨h1, h2, h3⟩ := menuStep_exit fuel m0 m2 hs code hx
        exact ⟨h1, 0, m0, by omega, rfl, h2, h3, hs⟩
      · obtain ⟨hcode, k, m, hk, hrun, hmm, hsel, hstep⟩ :=
          ih m2 h (fun c hc => hm2 ⟨c, hc⟩)
        refine ⟨hcode, k + 1, m, by omega, ?_, hmm, hsel, hstep⟩
        rw [menuRun, hs]
        exact hrun

/-- C11. Exit is possible only from the main menu.  In the menu machine (main
menu, student dashboard, teacher dashboard, staff screen), whatever step is
taken: if it leaves the program, the code is 0, the step was taken at the main
menu and the choice read was 3; a step taken in a student, teacher or staff
dashboard never leaves the program; a step taken in a student or teacher
dashboard either stays in that dashboard, the choice read not being 6, or goes
back to the main menu, the choice read being 6, and the staff screen goes back
to the main menu.  And whenever `main` returns, it returns 0, and the machine,
run on the same input, reaches the main menu in a state where choice 3 is read
and its next step leaves the program in the final state of `main`. -/
theorem exit_only_from_main_menu (fuel : Nat) (m m1 : Machine)
    (h : menuStep fuel m = some m1) :
    (∀ code, m1.screen = Screen.exited code →
      code = 0 ∧ m.screen = Screen.mainMenu ∧ selected m.st.world = some 3) ∧
    ((m.screen = Screen.studentDashboard ∨ m.screen = Screen.teacherDashboard ∨
        m.screen = Screen.staffScreen) → ∀ code, m1.screen ≠ Screen.exited code) ∧
    ((m.screen = Screen.studentDashboard ∨ m.screen = Screen.teacherDashboard) →
      (m1.screen = m.screen ∧ selected m.st.world ≠ some 6) ∨
      (m1.screen = Screen.mainMenu ∧ selected m.st.world = some 6)) ∧
    (m.screen = Screen.staffScreen → m1.screen = Screen.mainMenu) ∧
    (∀ (input : List Char) (code : Int) (w : World), main fuel input = some (code, w) →
      code = 0 ∧ ∃ k m2 m3, menuRun fuel k (startMachine input) = some m2 ∧
        m2.screen = Screen.mainMenu ∧ selected m2.st.world = some 3 ∧
        menuStep fuel m2 = some m3 ∧ m3.screen = Screen.exited 0 ∧ m3.st.world = w) := by
  refine ⟨menuStep_exit fuel m m1 h, ?_, ?_, ?_, ?_⟩
  · intro hd code hx
    have := (menuStep_exit fuel m m1 h code hx).2.1
    rw [this] at hd
    rcases hd with hd | hd | hd <;> cases hd
  · intro hd
    rcases menuStep_dashboard fuel m m1 h hd with ⟨h1, h2⟩ | ⟨h1, h2⟩
    · exact Or.inl ⟨h1, h2⟩
    · exact Or.inr ⟨by rw [h1]; rfl, h2⟩
  · intro hs
    obtain ⟨screen, st⟩ := m
    simp only at hs
    subst hs
    simp only [menuStep] at h
    cases h
    rfl
  · intro input code w hmain
    obtain ⟨n, st1, hrun, hw⟩ := mainLoop_run fuel _ code w hmain fuel (le_refl _)
    obtain ⟨hcode, k, m2, -, hk, hm2, hsel, hstep⟩ :=
      menuRun_exit fuel n (startMachine input) _ hrun code rfl (fun c hc => by cases hc)
    subst hcode
    exact ⟨rfl, k, m2, _, hk, hm2, hsel, hstep, rfl, hw⟩

/-- Witness for C11: at the seeded start choice 3 leaves the program with code
0; Alice at her dashboard typing choice 3 stays in the dashboard. -/
theorem exit_only_from_main_menu_witness :
    (∃ m1, menuStep 0 (startMachine exitKeys) = some m1 ∧ m1.screen = Screen.exited 0 ∧
      selected (startMachine exitKeys).st.world = some 3) ∧
    (∃ m1, menuStep 0 aliceAtDashboard = some m1 ∧ m1.screen = Screen.studentDashboard ∧
      ∀ code, m1.screen ≠ Screen.exited code) ∧
    (main 1 exitKeys).map Prod.fst = some 0 :=
  ⟨⟨(menuStep 0 (startMachine exitKeys)).get (by decide), by decide, by decide,
     ((exit_only_from_main_menu 0 (startMachine exitKeys)
       ((menuStep 0 (startMachine exitKeys)).get (by decide)) (by decide)).1 0
       (by decide)).2.2⟩,
   ⟨(menuStep 0 aliceAtDashboard).get (by decide), by decide, by decide,
     (exit_only_from_main_menu 0 aliceAtDashboard
       ((menuStep 0 aliceAtDashboard).get (by decide)) (by decide)).2.1 (Or.inl rfl)⟩,
   by decide⟩

/-! ## Which lines the marking loop accepts -/

theorem markLoop_round (fuel : Nat) (pc : Option Char) (w : World) :
    markLoop (fuel + 1) pc w =
      match markRound pc w with
      | none => none
      | some (c, true, w1) => some (c, w1)
      | some (c, false, w1) => markLoop fuel (some c) w1 := by
  rw [markLoop, markRound]
  split
  · next hx => simp [hx]
  · next c hx =>
    by_cases hc : tolower c = 'p' ∨ tolower c = 'a'
    · simp [hx, hc]
    · simp [hx, hc]

theorem tolower_p (c : Char) : tolower c = 'p' ↔ (c = 'p' ∨ c = 'P') := by
  unfold tolower
  split
  · next h =>
    have hc : c = Char.ofNat c.toNat := (Char.ofNat_toNat c).symm
    obtain ⟨h1, h2⟩ := h
    generalize hk : c.toNat = k at h1 h2 hc
    subst hc
    interval_cases k <;> decide
  · next h =>
    constructor
    · intro hp; exact Or.inl hp
    · rintro (rfl | rfl)
      · rfl
      · exact absurd (by decide) h

theorem tolower_a (c : Char) : tolower c = 'a' ↔ (c = 'a' ∨ c = 'A') := by
  unfold tolower
  split
  · next h =>
    have hc : c = Char.ofNat c.toNat := (Char.ofNat_toNat c).symm
    obtain ⟨h1, h2⟩ := h
    generalize hk : c.toNat = k at h1 h2 hc
    subst hc
    interval_cases k <;> decide
  · next h =>
    constructor
    · intro hp; exact Or.inl hp
    · rintro (rfl | rfl)
      · rfl
      · exact absurd (by decide) h

theorem tolower_isMark (c : Char) : (tolower c = 'p' ∨ tolower c = 'a') ↔ IsMark c := by
  rw [tolower_p, tolower_a]
  unfold IsMark
  tauto

theorem firstKey_some (text : String) (c : Char) (h : firstKey text = some c) :
    ∃ cs, text.data.dropWhile isspace = c :: cs := by
  unfold firstKey at h
  cases hd : text.data.dropWhile isspace with
  | nil => rw [hd] at h; cases h
  | cons d ds =>
    rw [hd] at h
    simp only [List.head?_cons, Option.some.injEq] at h
    exact ⟨ds, by rw [h]⟩

theorem firstKey_none (text : String) (h : firstKey text = none) :
    text.data.dropWhile isspace = [] := by
  unfold firstKey at h
  cases hd : text.data.dropWhile isspace with
  | nil => rfl
  | cons d ds => rw [hd] at h; cases h

theorem extractChar_key (text : String) (rest : List Char) (c : Char) (cs : List Char)
    (h : text.data.dropWhile isspace = c :: cs) :
    (console (line text rest)).extractChar = (some c, console (cs ++ '\n' :: rest)) := by
  simp [IStream.extractChar, IStream.good, console, line, List.dropWhile_append, h]

theorem extractChar_blank (text : String) (rest : List Char)
    (h : text.data.dropWhile isspace = []) :
    (console (line text rest)).extractChar = (console rest).extractChar := by
  have hn : isspace '\n' = true := by decide
  simp [IStream.extractChar, IStream.good, console, line, List.dropWhile_append, h,
    List.dropWhile_cons, hn]

theorem ignore_tail (text : String) (rest : List Char) (c : Char) (cs : List Char)
    (hline : OneLine text) (h : text.data.dropWhile isspace = c :: cs) :
    (console (cs ++ '\n' :: rest)).ignore = console rest := by
  have hsuf : (c :: cs) <:+ text.data := h ▸ List.dropWhile_suffix _
  have hcs : '\n' ∉ cs := fun hm => hline (hsuf.subset (List.mem_cons_of_mem _ hm))
  simp [IStream.ignore, IStream.good, console, splitLine_append _ _ hcs]

theorem markRound_accept (pc : Option Char) (w : World) (text : String) (rest : List Char)
    (c : Char) (hline : OneLine text) (hcin : w.cin = console (line text rest))
    (hkey : firstKey text = some c) (hmark : IsMark c) :
    markRound pc w = some (tolower c, true, { w with cin := console rest }) := by
  obtain ⟨cs, hcs⟩ := firstKey_some text c hkey
  have hm := (tolower_isMark c).2 hmark
  simp [markRound, World.extractChar, hcin, extractChar_key text rest c cs hcs, hm, ignoreLine,
    ignore_tail text rest c cs hline hcs]

theorem markRound_reject (pc : Option Char) (w : World) (text : String) (rest : List Char)
    (c : Char) (hline : OneLine text) (hcin : w.cin = console (line text rest))
    (hkey : firstKey text = some c) (hmark : ¬ IsMark c) :
    markRound pc w = some (tolower c, false,
      { w with cin := console rest,
               cout := w.cout ++ ["Invalid input. Enter \'p\' or \'a\': "] }) := by
  obtain ⟨cs, hcs⟩ := firstKey_some text c hkey
  have hm : ¬ (tolower c = 'p' ∨ tolower c = 'a') := fun h => hmark ((tolower_isMark c).1 h)
  have hclear : (console (cs ++ '\n' :: rest)).clear = console (cs ++ '\n' :: rest) := rfl
  simp [markRound, World.extractChar, hcin, extractChar_key text rest c cs hcs, hm, ignoreLine,
    World.put, World.clear, hclear, ignore_tail text rest c cs hline hcs]

theorem markRound_blank (pc : Option Char) (w : World) (text : String) (rest : List Char)
    (hcin : w.cin = console (line text rest)) (hkey : firstKey text = none) :
    markRound pc w = markRound pc { w with cin := console rest } := by
  have hb := extractChar_blank text rest (firstKey_none text hkey)
  simp [markRound, World.extractChar, hcin, hb]

theorem splitLine_snd_length (l r : List Char) (h : (splitLine l).2 = some r) :
    r.length < l.length := by
  induction l with
  | nil => simp [splitLine] at h
  | cons c cs ih =>
    by_cases hc : c = '\n'
    · simp only [splitLine, hc, if_true, Option.some.injEq] at h
      subst h
      simp
    · simp only [splitLine, hc, if_false] at h
      have := ih h
      simp only [List.length_cons]
      omega

theorem ignore_not_restored (s : IStream) (rest : List Char)
    (h : s.failbit = true ∨ s.eofbit = true ∨ s.buf.length < rest.length) :
    s.ignore ≠ console rest := by
  intro he
  unfold IStream.ignore at he
  split at he
  · next hg =>
    simp only [IStream.good, Bool.and_eq_true, Bool.not_eq_true'] at hg
    rcases h with h | h | h
    · rw [hg.1] at h; cases h
    · rw [hg.2] at h; cases h
    · split at he
      · next l r hs =>
        have hlen := splitLine_snd_length s.buf r (by rw [hs])
        have := congrArg IStream.buf he
        simp only [console] at this
        rw [this] at hlen
        omega
      · next l hs =>
        have := congrArg IStream.eofbit he
        simp [console] at this
  · next hg =>
    have := congrArg IStream.failbit he
    simp [console] at this

theorem extractChar_after (rest : List Char) :
    ((console rest).extractChar).2.failbit = true ∨
    ((console rest).extractChar).2.eofbit = true ∨
    ((console rest).extractChar).2.buf.length < rest.length := by
  unfold IStream.extractChar
  simp only [IStream.good, console, Bool.not_false, Bool.and_self, if_true]
  cases hd : List.dropWhile isspace rest with
  | nil => exact Or.inl rfl
  | cons c cs =>
    refine Or.inr (Or.inr ?_)
    have hsuf : (c :: cs) <:+ rest := hd ▸ List.dropWhile_suffix _
    have := hsuf.length_le
    simp only [List.length_cons] at this
    simp only
    omega

theorem markRound_blank_not_accepted (pc : Option Char) (w : World) (text : String)
    (rest : List Char) (hcin : w.cin = console (line text rest))
    (hkey : firstKey text = none) (mark : Char) (w1 : World)
    (h : markRound pc w = some (mark, true, w1)) : w1.cin ≠ console rest := by
  rw [markRound_blank pc w text rest hcin hkey] at h
  unfold markRound at h
  split at h
  · cases h
  · next c hx =>
    split at h
    · simp only [Option.some.injEq, Prod.mk.injEq, true_and] at h
      rw [← h.2]
      simp only [ignoreLine, World.extractChar]
      exact ignore_not_restored _ rest (extractChar_after rest)
    · simp at h

theorem tolower_present (c : Char) :
    (tolower c == 'p') = decide (c = 'p' ∨ c = 'P') := by
  by_cases h : c = 'p' ∨ c = 'P'
  · simp [h, (tolower_p c).2 h]
  · have : tolower c ≠ 'p' := fun hp => h ((tolower_p c).1 hp)
    simp [h, this]

theorem markLoop_first_accepted (lines : List String) (good : String) (c : Char)
    (rest : List Char) (pc : Option Char) (w : World) (fuel : Nat)
    (hlines : ∀ l ∈ lines, OneLine l ∧ ∀ d, firstKey l = some d → ¬ IsMark d)
    (hgood : OneLine good) (hkey : firstKey good = some c) (hmark : IsMark c)
    (hcin : w.cin = console (typedLines lines (line good rest))) :
    markLoop (fuel + lines.length + 1) pc w = some (tolower c,
      { w with cin := console rest,
               cout := w.cout ++ (nonBlank lines).map
                 (fun _ => "Invalid input. Enter \'p\' or \'a\': ") }) := by
  induction lines generalizing pc w fuel with
  | nil =>
    simp only [typedLines, List.foldr_nil] at hcin
    rw [markLoop_round, markRound_accept pc w good rest c hgood hcin hkey hmark]
    simp [nonBlank]
  | cons l ls ih =>
    have hl := hlines l (by simp)
    have hls : ∀ x ∈ ls, OneLine x ∧ ∀ d, firstKey x = some d → ¬ IsMark d :=
      fun x hx => hlines x (by simp [hx])
    have hcin1 : w.cin = console (line l (typedLines ls (line good rest))) := by
      simpa [typedLines] using hcin
    cases hk : firstKey l with
    | none =>
      have e : fuel + (l :: ls).length + 1 = (fuel + 1 + ls.length) + 1 := by
        simp only [List.length_cons]; omega
      rw [e, markLoop_round, markRound_blank pc w l _ hcin1 hk, ← markLoop_round]
      have := ih pc { w with cin := console (typedLines ls (line good rest)) } (fuel + 1)
        hls rfl
      rw [this]
      simp [nonBlank, hk]
    | some d =>
      have e : fuel + (l :: ls).length + 1 = (fuel + ls.length + 1) + 1 := by
        simp only [List.length_cons]; omega
      rw [e, markLoop_round, markRound_reject pc w l _ d hl.1 hcin1 hk (hl.2 d hk)]
      have := ih (some (tolower d))
        { w with cin := console (typedLines ls (line good rest)),
                 cout := w.cout ++ ["Invalid input. Enter \'p\' or \'a\': "] } fuel hls rfl
      simp only
      rw [this]
      simp [nonBlank, hk]

/-- Counterexample for C12 as stated: the line `absent` is not the character
`p` or `a` in either case, yet the marking loop accepts it; and on the seeded
store, with an empty line and `absent` typed for Alice and a blank and `P` for
Bob, no "Invalid input" prompt is printed and the summary reports Alice Absent
and Bob Present. -/
theorem marks_line_counterexample :
    ¬ ((∃ mark w1, markRound none (initialWorld (line "absent" [])) = some (mark, true, w1) ∧
          w1.cin = console []) ↔
        ("absent" = "p" ∨ "absent" = "P" ∨ "absent" = "a" ∨ "absent" = "A")) ∧
    (handleAttendanceTaking 1 (initialWorld sloppyMarkKeys)).map World.cout = some
      ["--- Take Attendance ---\n", "Enter Subject Name: ",
       "Enter Date (e.g., 15 Feb 2024): ", "----------------------\n",
       "Mark Attendance (P=Present, A=Absent):\n",
       "- Alice Smith (S1001): ", "- Bob Johnson (S1002): ",
       "\n--- Attendance Summary (Maths - 15 Feb 2024) ---\n",
       "Bob Johnson: Present\n", "Alice Smith: Absent\n",
       "--------------------------------------------------------\n",
       "Attendance Recorded (Simulated Save).\n", "----------------------\n"] := by
  refine ⟨fun h => ?_, by decide⟩
  have hacc : ∃ mark w1, markRound none (initialWorld (line "absent" [])) =
      some (mark, true, w1) ∧ w1.cin = console [] :=
    ⟨'a', initialWorld [], by decide, rfl⟩
  exact absurd (h.1 hacc) (by decide)

/-- C12, amended.  For a line typed in answer to a student's prompt in
`handleAttendanceTaking`: the line is accepted if and only if its first
character that is not a blank is `p` or `a` in either case, whatever follows it
on the line, `p`/`P` giving the mark `p` (present), `a`/`A` the mark `a`
(absent); a line whose first such character is anything else records nothing, is
discarded whole, and the same student is prompted again; a line with no such
character is skipped without a new prompt.  The loop is the repetition of such
passes, so for a Student the entry recorded, after any lines that are not
accepted, is the one given by the first accepted line: present exactly when its
first non-blank character is `p` or `P`. -/
theorem marks_validated_by_first_key (pc : Option Char) (w : World) (text : String)
    (rest : List Char) (hline : OneLine text) (hcin : w.cin = console (line text rest)) :
    ((∃ mark w1, markRound pc w = some (mark, true, w1) ∧ w1.cin = console rest) ↔
      ∃ c, firstKey text = some c ∧ IsMark c) ∧
    (∀ c, firstKey text = some c → (c = 'p' ∨ c = 'P') →
      markRound pc w = some ('p', true, { w with cin := console rest })) ∧
    (∀ c, firstKey text = some c → (c = 'a' ∨ c = 'A') →
      markRound pc w = some ('a', true, { w with cin := console rest })) ∧
    (∀ c, firstKey text = some c → ¬ IsMark c →
      ∃ v, markRound pc w = some (v, false,
        { w with cin := console rest,
                 cout := w.cout ++ ["Invalid input. Enter \'p\' or \'a\': "] })) ∧
    (firstKey text = none → markRound pc w = markRound pc { w with cin := console rest }) ∧
    (∀ fuel, markLoop (fuel + 1) pc w =
      match markRound pc w with
      | none => none
      | some (c, true, w1) => some (c, w1)
      | some (c, false, w1) => markLoop fuel (some c) w1) ∧
    (∀ (fuel : Nat) (user : User) (us : List User) (record : List (String × Bool)) (n : Nat)
        (lines : List String) (good : String) (c : Char) (rest0 : List Char) (w0 : World),
      user.role = Role.STUDENT →
      (∀ l ∈ lines, OneLine l ∧ ∀ d, firstKey l = some d → ¬ IsMark d) →
      OneLine good → firstKey good = some c → IsMark c →
      w0.cin = console (typedLines lines (line good rest0)) →
      attendanceLoop (fuel + lines.length + 1) (user :: us) pc record n w0 =
        attendanceLoop (fuel + lines.length + 1) us (some (tolower c))
          (mapAssign user.email (decide (c = 'p' ∨ c = 'P')) record) (n + 1)
          { w0 with cin := console rest0,
                    cout := w0.cout ++ markPrompt user ::
                      (nonBlank lines).map
                        (fun _ => "Invalid input. Enter \'p\' or \'a\': ") }) := by
  refine ⟨⟨?_, ?_⟩, ?_, ?_, ?_, ?_, ?_, ?_⟩
  · rintro ⟨mark, w1, hr, hw1⟩
    cases hk : firstKey text with
    | none => exact absurd hw1 (markRound_blank_not_accepted pc w text rest hcin hk mark w1 hr)
    | some c =>
      refine ⟨c, rfl, ?_⟩
      by_contra hm
      rw [markRound_reject pc w text rest c hline hcin hk hm] at hr
      simp at hr
  · rintro ⟨c, hk, hm⟩
    exact ⟨tolower c, _, markRound_accept pc w text rest c hline hcin hk hm, rfl⟩
  · intro c hk hc
    have hm : IsMark c := by unfold IsMark; tauto
    rw [markRound_accept pc w text rest c hline hcin hk hm, (tolower_p c).2 hc]
  · intro c hk hc
    have hm : IsMark c := by unfold IsMark; tauto
    rw [markRound_accept pc w text rest c hline hcin hk hm, (tolower_a c).2 hc]
  · intro c hk hm
    exact ⟨tolower c, markRound_reject pc w text rest c hline hcin hk hm⟩
  · exact markRound_blank pc w text rest hcin
  · exact fun fuel => markLoop_round fuel pc w
  · intro fuel user us record n lines good c rest0 w0 hu hlines hgood hk hm hcin0
    have hloop := markLoop_first_accepted lines good c rest0 pc
      (w0.put ("- " ++ user.name ++ " (" ++ user.roleSpecificData ++ "): ")) fuel hlines
      hgood hk hm (by simpa [World.put] using hcin0)
    rw [attendanceLoop, if_pos hu, hloop]
    simp [tolower_present, World.put, markPrompt]

/-- Witness for C12, amended: the line made of a blank and `P` is accepted. -/
theorem marks_validated_by_first_key_witness :
    ∃ mark w1, markRound none (initialWorld (line " P" ['x'])) = some (mark, true, w1) ∧
      w1.cin = console ['x'] :=
  (marks_validated_by_first_key none (initialWorld (line " P" ['x'])) " P" ['x']
    (by decide) rfl).1.2 ⟨'P', by decide, by decide⟩

end CollegeAlerter
